import Mathlib

/-!
# Mattermost voting bot: the vote handlers of `src/src/main.go`

The bot keeps its polls in the Tarantool space `votes`; a poll is a tuple
`[id, channel, creator, question, options, createdAt, active, votedUsers]`.
Every handler receives a chat post, parses it with a regular expression, talks
to the store through `Select` / `Insert` / `Update` / `Call`, and answers with
`sendMessage`.

The embedding keeps Go's dynamic typing of tuple fields (`interface{}` values
and the type assertions the handlers perform on them), threads the state of
the store connection explicitly, and returns the ordered list of store calls
and posted messages of one handler run.
-/

set_option autoImplicit false

namespace VotingBot

/-! ## Go values held in tuples -/

/-- Scalar Go values as they occur behind `interface{}`: the dynamic type is
part of the value, so `int 5`, `int64 5` and `uint64 5` are different. -/
inductive Atom where
  | nil
  | bool (b : Bool)
  | int (n : Int)
  | int64 (n : Int)
  | uint64 (n : Nat)
  | str (s : String)
  deriving DecidableEq, Repr

/-- Go maps are kept as association lists; a key is looked up at its first
entry and assignment overwrites that entry, so entries behind a repeated key
are never observed. -/
abbrev GoMap (κ β : Type) := List (κ × β)

/-- The type `map[interface{}]interface{}` with scalar keys and values. -/
abbrev IMap := GoMap Atom Atom

/-- A tuple field: a scalar or one of the map types the program and its tests
put into tuples (`map[interface{}]interface{}` as read from the store,
`map[string]interface{}` and `map[string]bool` as `handleCreateVote` and the
test mocks build them).  Floats, slices and maps inside maps occur nowhere in
the program and are left out. -/
inductive Value where
  | atom (a : Atom)
  | imap (m : IMap)
  | mapStringAny (m : GoMap String Atom)
  | mapStringBool (m : GoMap String Bool)
  deriving DecidableEq, Repr

/-- A tuple, Go's `[]interface{}`. -/
abbrev Tuple := List Value

/-- Map read `m[k]` in its comma-ok form. -/
def mapGet {κ β : Type} [DecidableEq κ] (k : κ) : GoMap κ β → Option β
  | [] => none
  | (k1, v1) :: m => if k1 = k then some v1 else mapGet k m

/-- Map assignment `m[k] = v`. -/
def mapSet {κ β : Type} [DecidableEq κ] (k : κ) (v : β) : GoMap κ β → GoMap κ β
  | [] => [(k, v)]
  | (k1, v1) :: m => if k1 = k then (k, v) :: m else (k1, v1) :: mapSet k v m

/-- Keys of a map, in entry order. -/
def mapKeys {κ β : Type} (m : GoMap κ β) : List κ := m.map Prod.fst

/-- Two's-complement wrap-around of Go's `int64` arithmetic. -/
def wrapInt64 (x : Int) : Int := (x + 2 ^ 63) % 2 ^ 64 - 2 ^ 63

/-! ## Posts, store connection, observable events -/

/-- The fields of `model.Post` the handlers read. -/
structure Post where
  Message : String
  ChannelId : String
  UserId : String
  deriving DecidableEq, Repr

/-- The iterator argument of `Select`; the handlers only pass `IterEq`. -/
inductive Iter where
  | IterEq
  deriving DecidableEq, Repr

/-- One update operation `[]interface{}{op, field, arg}`. -/
structure UpdateOp where
  op : String
  field : Nat
  arg : Value
  deriving DecidableEq, Repr

/-- The part of `tarantool.Response` the handlers read: `Data`, whose
elements they take for tuples (`resp.Data[0].([]interface{})`). -/
structure Response where
  Data : List Tuple
  deriving DecidableEq, Repr

/-- The four store methods the bot calls (the method set of the mock in
`src/src/tests.go`).  `S` is the state behind the connection; a call returns
the new state and either the error text (`err.Error()`) or the response. -/
structure Connection (S : Type) where
  Select : S → String → String → Nat → Nat → Iter → Tuple → S × Except String Response
  Insert : S → String → Tuple → S × Except String Response
  Update : S → String → String → Tuple → List UpdateOp → S × Except String Response
  Call : S → String → Tuple → S × Except String Response

/-- What one handler run does to the outside, in order: store calls, posts
sent with `client.CreatePost`, and a Go run-time panic, which ends the run. -/
inductive Event where
  | Select (space index : String) (offset limit : Nat) (iterator : Iter) (key : Tuple)
  | Insert (space : String) (tuple : Tuple)
  | Update (space index : String) (key : Tuple) (ops : List UpdateOp)
  | Call (functionName : String) (args : Tuple)
  | CreatePost (channelId message : String)
  | goPanic
  deriving DecidableEq, Repr

/-! ## The regular expressions of the handlers

Go's `regexp` finds the leftmost match and, at that start, the match preferred
by greedy repetition.  Each pattern of the program is written out as a matcher
at a fixed start (`...At`) searched over every start from left to right. -/

/-- Leftmost search: the first suffix of the input at which `f` matches. -/
def findLeftmost {α : Type} (f : List Char → Option α) : List Char → Option α
  | [] => f []
  | c :: cs =>
    match f (c :: cs) with
    | some r => some r
    | none => findLeftmost f cs

/-- Match a literal at the head of the input and return the rest. -/
def dropLit : List Char → List Char → Option (List Char)
  | [], s => some s
  | _ :: _, [] => none
  | p :: ps, c :: cs => if p = c then dropLit ps cs else none

/-- The class `\w` of Go: ASCII letters, digits and the underscore. -/
def isWordChar (c : Char) : Bool := c.isAlphanum || c == '_'

/-- The quote character. -/
def dq : Char := '"'

/-- The line feed, the one character `.` does not match. -/
def lf : Char := '\n'

/-- The group `(\w+)` at the head of the input: the longest run of word
characters, which must not be empty. -/
def wordGroup (s : List Char) : Option String :=
  match s.takeWhile isWordChar with
  | [] => none
  | w => some (String.mk w)

/-- The fragment `([^"]+)"` at the head of the input: a non-empty run without
a quote that ends at a quote; returns the run and what follows the quote. -/
def quotedGroup (s : List Char) : Option (List Char × List Char) :=
  match s.span (fun c => c != dq) with
  | ([], _) => none
  | (_, []) => none
  | (g, _ :: rest) => some (g, rest)

/-- The pattern `/vote info (\w+)` at a fixed start. -/
def reInfoAt (s : List Char) : Option String :=
  match dropLit "/vote info ".toList s with
  | none => none
  | some rest => wordGroup rest

/-- Submatch 1 of `/vote info (\w+)`, or `none` when `len(matches) < 2`. -/
def reInfo (message : String) : Option String :=
  findLeftmost reInfoAt message.toList

/-- The pattern `/vote delete (\w+)` at a fixed start. -/
def reDeleteAt (s : List Char) : Option String :=
  match dropLit "/vote delete ".toList s with
  | none => none
  | some rest => wordGroup rest

/-- Submatch 1 of `/vote delete (\w+)`. -/
def reDelete (message : String) : Option String :=
  findLeftmost reDeleteAt message.toList

/-- The pattern `/vote end (\w+)` at a fixed start. -/
def reEndAt (s : List Char) : Option String :=
  match dropLit "/vote end ".toList s with
  | none => none
  | some rest => wordGroup rest

/-- Submatch 1 of `/vote end (\w+)`. -/
def reEnd (message : String) : Option String :=
  findLeftmost reEndAt message.toList

/-- The pattern `/vote "([^"]+)" (\w+)` at a fixed start. -/
def reVoteAt (s : List Char) : Option (String × String) :=
  match dropLit "/vote \"".toList s with
  | none => none
  | some rest =>
    match quotedGroup rest with
    | none => none
    | some (g, rest1) =>
      match dropLit [' '] rest1 with
      | none => none
      | some rest2 =>
        match wordGroup rest2 with
        | none => none
        | some w => some (String.mk g, w)

/-- Submatches 1 and 2 of `/vote "([^"]+)" (\w+)`: option label and vote id. -/
def reVote (message : String) : Option (String × String) :=
  findLeftmost reVoteAt message.toList

/-- Length of the shortest prefix of `s` that ends at its last quote, `none`
when `s` has no quote. -/
def lastQuoteEnd : List Char → Option Nat
  | [] => none
  | c :: cs =>
    match lastQuoteEnd cs with
    | some n => some (n + 1)
    | none => if c = dq then some 1 else none

/-- The group `(".+")` at the head of the input: a quote, then as many
characters of the same line as possible (at least one) up to a closing quote. -/
def optionsGroup (s : List Char) : Option (List Char) :=
  match s with
  | [] => none
  | c :: cs =>
    if c = dq then
      match (cs.takeWhile (fun x => x != lf)) with
      | [] => none
      | x :: line =>
        match lastQuoteEnd line with
        | none => none
        | some n => some (dq :: x :: line.take n)
    else none

/-- The pattern `/vote create "([^"]+)" (".+")` at a fixed start. -/
def reCreateAt (s : List Char) : Option (String × String) :=
  match dropLit "/vote create \"".toList s with
  | none => none
  | some rest =>
    match quotedGroup rest with
    | none => none
    | some (g, rest1) =>
      match dropLit [' '] rest1 with
      | none => none
      | some rest2 =>
        match optionsGroup rest2 with
        | none => none
        | some o => some (String.mk g, String.mk o)

/-- Submatches 1 and 2 of `/vote create "([^"]+)" (".+")`: the question and
the text of the quoted options. -/
def reCreate (message : String) : Option (String × String) :=
  findLeftmost reCreateAt message.toList

/-- All matches of `"([^"]+)"` from left to right without overlap, as a scan:
`cur` is `none` outside a quoted run and `some r` after an opening quote, `r`
being the run read so far in reverse.  A quote right after an opening quote
closes nothing and is itself the next opening quote; a run the input ends in
is no match. -/
def scanOptions : Option (List Char) → List Char → List String
  | _, [] => []
  | none, c :: cs => if c = dq then scanOptions (some []) cs else scanOptions none cs
  | some r, c :: cs =>
    if c = dq then
      match r with
      | [] => scanOptions (some []) cs
      | _ :: _ => String.mk r.reverse :: scanOptions none cs
    else scanOptions (some (c :: r)) cs

/-- Submatch 1 of every match of `optionRe.FindAllStringSubmatch(optionsStr, -1)`. -/
def optionRe (optionsStr : String) : List String :=
  scanOptions none optionsStr.toList

/-! ## Message texts -/

/-- The verb `%s` of `fmt.Sprintf` on a value behind `interface{}`. -/
def fmtS : Atom → String
  | .str s => s
  | .nil => "%!s(<nil>)"
  | .bool b => "%!s(bool=" ++ toString b ++ ")"
  | .int n => "%!s(int=" ++ toString n ++ ")"
  | .int64 n => "%!s(int64=" ++ toString n ++ ")"
  | .uint64 n => "%!s(uint64=" ++ toString n ++ ")"

/-- The verb `%d` of `fmt.Sprintf` on a value behind `interface{}`. -/
def fmtD : Atom → String
  | .int n => toString n
  | .int64 n => toString n
  | .uint64 n => toString n
  | .nil => "%!d(<nil>)"
  | .bool b => "%!d(bool=" ++ toString b ++ ")"
  | .str s => "%!d(string=" ++ s ++ ")"

/-- The loop `for opt, count := range options` writing `"\n- %s: %d"`.  Go
leaves the order of a map range open and changes it from run to run: the
entries are taken in list order, and the order of the list stands for the
order this one range of the run happens to take (`rangeConn` hands a map out
in any order). -/
def resultText (options : IMap) : String :=
  String.join (options.map (fun e => "\n- " ++ fmtS e.1 ++ ": " ++ fmtD e.2))

/-- The loop `for option := range options` of `handleCreateVote` over the
option labels, in list order; the order of the lines in the reply is open in
the program. -/
def optionsText (options : GoMap String Atom) : String :=
  String.join (options.map (fun e => "\n- `" ++ e.1 ++ "`"))

def msgNotFound : String := "Голосование не найдено"

def msgVoteClosed : String := "Голосование уже завершено"

def msgAlreadyVoted : String := "Вы уже проголосовали в этом голосовании"

def msgBadFormat : String := "Ошибка формата голосования"

def msgInvalidOption : String := "Недопустимый вариант"

def msgUnauthorized : String := "Только создатель может завершить голосование"

def msgTooFewOptions : String := "Нужно минимум 2 варианта ответа"

def msgDeleted : String := "Голосование успешно удалено"

def helpText : String :=
  "**Доступные команды:**\n- /vote create \"Вопрос?\" \"Вариант1\" \"Вариант2\" ... - Создать голосование\n- /vote \"Ваш выбор\" ID - Проголосовать (1 раз)\n- /vote info ID - Показать текущие результаты\n- /vote end ID - Завершить голосование (только создатель)\n- /vote delete ID - Удалить голосование (только создатель)"

/-- Reply of a successful `handleVoteInfo`. -/
def infoMessage (question : String) (options : IMap) : String :=
  "##### Текущие результаты голосования: " ++ question ++ "\n" ++ resultText options

/-- Reply of a successful `handleCreateVote`. -/
def createdMessage (question : String) (options : GoMap String Atom) (voteID : String) : String :=
  "### " ++ question ++ "\n**Варианты:**" ++ optionsText options ++
    "\n\nПроголосовать: `/vote \"ваш выбор\" " ++ voteID ++ "`\n\nID голосования: `" ++ voteID ++ "`"

/-- Reply of a successful `handleVote`. -/
def votedMessage (options : IMap) : String :=
  "Ваш голос учтён! Текущие результаты:" ++ resultText options

/-- Reply of a successful `handleEndVote`. -/
def endedMessage (question : String) (options : IMap) : String :=
  "### Итоги голосования: " ++ question ++ "\n**Результаты:**" ++ resultText options

/-! ## The handlers -/

/-- The call `b.sendMessage`: one post to the channel; a failure of
`CreatePost` is only logged. -/
def sendMessage (channelID message : String) : List Event :=
  [Event.CreatePost channelID message]

/-- The call `b.sendHelp`. -/
def sendHelp (channelID : String) : List Event :=
  sendMessage channelID helpText

/-- The key `[]interface{}{voteID}` of a store call. -/
def voteKey (voteID : String) : Tuple := [Value.atom (Atom.str voteID)]

/-- The `Select` every handler issues: space `votes`, index `primary`,
offset 0, limit 1, `IterEq`, key `[voteID]`. -/
def selectEvent (voteID : String) : Event :=
  Event.Select "votes" "primary" 0 1 Iter.IterEq (voteKey voteID)

/-- The function `handleVoteInfo`. -/
def handleVoteInfo {S : Type} (t : Connection S) (post : Post) (s : S) : S × List Event :=
  match reInfo post.Message with
  | none => (s, sendHelp post.ChannelId)
  | some voteID =>
    match t.Select s "votes" "primary" 0 1 Iter.IterEq (voteKey voteID) with
    | (s1, Except.error _) => (s1, selectEvent voteID :: sendMessage post.ChannelId msgNotFound)
    | (s1, Except.ok resp) =>
      match resp.Data with
      | [] => (s1, selectEvent voteID :: sendMessage post.ChannelId msgNotFound)
      | vote :: _ =>
        match vote[4]?, vote[3]? with
        | some (Value.imap options), some (Value.atom (Atom.str question)) =>
          (s1, selectEvent voteID :: sendMessage post.ChannelId (infoMessage question options))
        | _, _ => (s1, [selectEvent voteID, Event.goPanic])

/-- The options map `handleCreateVote` builds: `options[match[1]] = 0` for
every match, the `0` being a Go `int`. -/
def buildOptions (labels : List String) : GoMap String Atom :=
  labels.foldl (fun m l => mapSet l (Atom.int 0) m) []

/-- The vote id `strings.ReplaceAll(uuid.New().String(), "-", "")`. -/
def newVoteID (uuid : String) : String :=
  String.mk (uuid.toList.filter (fun c => c != '-'))

/-- The tuple `voteData` of `handleCreateVote`. -/
def voteData (voteID : String) (post : Post) (question : String) (options : GoMap String Atom)
    (now : Int) : Tuple :=
  [Value.atom (Atom.str voteID),
   Value.atom (Atom.str post.ChannelId),
   Value.atom (Atom.str post.UserId),
   Value.atom (Atom.str question),
   Value.mapStringAny options,
   Value.atom (Atom.int64 now),
   Value.atom (Atom.bool true),
   Value.mapStringBool []]

/-- The function `handleCreateVote`; `uuid` is the text of `uuid.New()` and
`now` the value of `time.Now().Unix()`. -/
def handleCreateVote {S : Type} (t : Connection S) (uuid : String) (now : Int) (post : Post)
    (s : S) : S × List Event :=
  match reCreate post.Message with
  | none => (s, sendHelp post.ChannelId)
  | some (question, optionsStr) =>
    let options := buildOptions (optionRe optionsStr)
    if options.length < 2 then
      (s, sendMessage post.ChannelId msgTooFewOptions)
    else
      let voteID := newVoteID uuid
      match t.Insert s "votes" (voteData voteID post question options now) with
      | (s1, Except.error e) =>
        (s1, Event.Insert "votes" (voteData voteID post question options now) ::
          sendMessage post.ChannelId ("Ошибка при создании голосования: " ++ e))
      | (s1, Except.ok _) =>
        (s1, Event.Insert "votes" (voteData voteID post question options now) ::
          sendMessage post.ChannelId (createdMessage question options voteID))

/-- The assertion `votedUsers, _ := vote[7].(map[interface{}]interface{})`
followed by `make` for a nil map: a field of another type counts as empty. -/
def votedUsersOf : Value → IMap
  | Value.imap m => m
  | _ => []

/-- The assertion `currentCount, _ := options[option].(int64)`: the zero value
when the stored count is of another type. -/
def currentCountOf : Atom → Int
  | Atom.int64 n => n
  | _ => 0

/-- What `handleVote` decides from the tuple it read, before it writes. -/
inductive VoteCheck where
  | reply (message : String)
  | goPanic
  | write (options votedUsers : IMap)
  deriving DecidableEq, Repr

/-- The checks and the local mutation of `handleVote` (from `vote[6]` to
`votedUsers[post.UserId] = true`): the poll must be active, the user must not
be a key of `votedUsers`, `options` must be a map holding the label; then the
label's count, read as `int64` (0 when the stored value is of another type),
grows by one and the user is marked. -/
def checkVote (userId option : String) (vote : Tuple) : VoteCheck :=
  match vote[6]? with
  | none => VoteCheck.goPanic
  | some v6 =>
    if v6 ≠ Value.atom (Atom.bool true) then VoteCheck.reply msgVoteClosed
    else
      match vote[7]? with
      | none => VoteCheck.goPanic
      | some v7 =>
        let votedUsers : IMap := votedUsersOf v7
        if (mapGet (Atom.str userId) votedUsers).isSome then VoteCheck.reply msgAlreadyVoted
        else
          match vote[4]? with
          | none => VoteCheck.goPanic
          | some (Value.imap options) =>
            match mapGet (Atom.str option) options with
            | none => VoteCheck.reply msgInvalidOption
            | some count =>
              let currentCount : Int := currentCountOf count
              VoteCheck.write
                (mapSet (Atom.str option) (Atom.int64 (wrapInt64 (currentCount + 1))) options)
                (mapSet (Atom.str userId) (Atom.bool true) votedUsers)
          | some _ => VoteCheck.reply msgBadFormat

/-- The operations `updateOps` of `handleVote`. -/
def updateOps (options votedUsers : IMap) : List UpdateOp :=
  [⟨"=", 4, Value.imap options⟩, ⟨"=", 7, Value.imap votedUsers⟩]

/-- The `Update` event of `handleVote`. -/
def updateEvent (voteID : String) (options votedUsers : IMap) : Event :=
  Event.Update "votes" "primary" (voteKey voteID) (updateOps options votedUsers)

/-- What `handleVote` holds between its `Select` and its `Update`: the vote
id and the two maps it has changed locally. -/
structure PendingWrite where
  voteID : String
  options : IMap
  votedUsers : IMap
  deriving DecidableEq, Repr

/-- How the first half of `handleVote` ends: the handler has returned, or it
is about to write. -/
inductive ReadOutcome where
  | returned (events : List Event)
  | pending (w : PendingWrite)
  deriving DecidableEq, Repr

/-- The first half of `handleVote`: parse, `Select`, checks, local mutation. -/
def handleVoteRead {S : Type} (t : Connection S) (post : Post) (s : S) : S × ReadOutcome :=
  match reVote post.Message with
  | none => (s, ReadOutcome.returned (sendHelp post.ChannelId))
  | some (option, voteID) =>
    match t.Select s "votes" "primary" 0 1 Iter.IterEq (voteKey voteID) with
    | (s1, Except.error _) =>
      (s1, ReadOutcome.returned (selectEvent voteID :: sendMessage post.ChannelId msgNotFound))
    | (s1, Except.ok resp) =>
      match resp.Data with
      | [] =>
        (s1, ReadOutcome.returned (selectEvent voteID :: sendMessage post.ChannelId msgNotFound))
      | vote :: _ =>
        match checkVote post.UserId option vote with
        | VoteCheck.goPanic => (s1, ReadOutcome.returned [selectEvent voteID, Event.goPanic])
        | VoteCheck.reply message =>
          (s1, ReadOutcome.returned (selectEvent voteID :: sendMessage post.ChannelId message))
        | VoteCheck.write options votedUsers =>
          (s1, ReadOutcome.pending ⟨voteID, options, votedUsers⟩)

/-- The second half of `handleVote`: the `Update` and the reply. -/
def handleVoteWrite {S : Type} (t : Connection S) (post : Post) (w : PendingWrite) (s1 : S) :
    S × List Event :=
  match t.Update s1 "votes" "primary" (voteKey w.voteID) (updateOps w.options w.votedUsers) with
  | (s2, Except.error e) =>
    (s2, selectEvent w.voteID :: updateEvent w.voteID w.options w.votedUsers ::
      sendMessage post.ChannelId ("Ошибка при голосовании: " ++ e))
  | (s2, Except.ok _) =>
    (s2, selectEvent w.voteID :: updateEvent w.voteID w.options w.votedUsers ::
      sendMessage post.ChannelId (votedMessage w.options))

/-- The function `handleVote`: its first half and, unless that returned, its
second half. -/
def handleVote {S : Type} (t : Connection S) (post : Post) (s : S) : S × List Event :=
  match handleVoteRead t post s with
  | (s1, ReadOutcome.returned events) => (s1, events)
  | (s1, ReadOutcome.pending w) => handleVoteWrite t post w s1

/-- The function `handleDeleteVote`. -/
def handleDeleteVote {S : Type} (t : Connection S) (post : Post) (s : S) : S × List Event :=
  match reDelete post.Message with
  | none => (s, sendHelp post.ChannelId)
  | some voteID =>
    match t.Select s "votes" "primary" 0 1 Iter.IterEq (voteKey voteID) with
    | (s1, Except.error _) => (s1, selectEvent voteID :: sendMessage post.ChannelId msgNotFound)
    | (s1, Except.ok resp) =>
      match resp.Data with
      | [] => (s1, selectEvent voteID :: sendMessage post.ChannelId msgNotFound)
      | vote :: _ =>
        match vote[2]? with
        | some (Value.atom (Atom.str creator)) =>
          if creator ≠ post.UserId then
            (s1, selectEvent voteID :: sendMessage post.ChannelId msgUnauthorized)
          else
            let args : Tuple := [Value.atom (Atom.str voteID), Value.atom (Atom.str post.UserId)]
            match t.Call s1 "delete_vote" args with
            | (s2, Except.error e) =>
              (s2, selectEvent voteID :: Event.Call "delete_vote" args ::
                sendMessage post.ChannelId ("Ошибка при удалении: " ++ e))
            | (s2, Except.ok _) =>
              (s2, selectEvent voteID :: Event.Call "delete_vote" args ::
                sendMessage post.ChannelId msgDeleted)
        | _ => (s1, [selectEvent voteID, Event.goPanic])

/-- The function `handleEndVote`. -/
def handleEndVote {S : Type} (t : Connection S) (post : Post) (s : S) : S × List Event :=
  match reEnd post.Message with
  | none => (s, sendHelp post.ChannelId)
  | some voteID =>
    match t.Select s "votes" "primary" 0 1 Iter.IterEq (voteKey voteID) with
    | (s1, Except.error _) => (s1, selectEvent voteID :: sendMessage post.ChannelId msgNotFound)
    | (s1, Except.ok resp) =>
      match resp.Data with
      | [] => (s1, selectEvent voteID :: sendMessage post.ChannelId msgNotFound)
      | vote :: _ =>
        match vote[2]? with
        | some (Value.atom (Atom.str creator)) =>
          if creator ≠ post.UserId then
            (s1, selectEvent voteID :: sendMessage post.ChannelId msgUnauthorized)
          else
            match t.Call s1 "end_vote" (voteKey voteID) with
            | (s2, Except.error e) =>
              (s2, selectEvent voteID :: Event.Call "end_vote" (voteKey voteID) ::
                sendMessage post.ChannelId ("Ошибка при завершении голосования: " ++ e))
            | (s2, Except.ok _) =>
              match vote[4]?, vote[3]? with
              | some (Value.imap options), some (Value.atom (Atom.str question)) =>
                (s2, selectEvent voteID :: Event.Call "end_vote" (voteKey voteID) ::
                  sendMessage post.ChannelId (endedMessage question options))
              | _, _ => (s2, [selectEvent voteID, Event.Call "end_vote" (voteKey voteID), Event.goPanic])
        | _ => (s1, [selectEvent voteID, Event.goPanic])

/-! ## The store, sequentially -/

/-- Modelled from the spec: the Vote Store collaborator, "a key-addressable
persistent store exposing get, insert, conditional-update, and delete by key"
(the Tarantool space `votes` and its stored procedures `end_vote` and
`delete_vote` are not among the sources).  The space is the list of its
tuples; field 0 is the primary key. -/
abbrev Store := List Tuple

/-- Modelled from the spec: a tuple is addressed by a key when its leading
fields are the key. -/
def hasKey (key : Tuple) (t : Tuple) : Bool := t.take key.length == key

/-- Modelled from the spec: `get(key)`, with the offset and limit of `Select`. -/
def Store.select (st : Store) (offset limit : Nat) (key : Tuple) : List Tuple :=
  ((st.filter (hasKey key)).drop offset).take limit

/-- Modelled from the spec: one assignment `=` of an update, fields counted
from 0 as the handlers count them. -/
def applyOp (t : Tuple) (o : UpdateOp) : Tuple := t.set o.field o.arg

/-- Modelled from the spec: the update of the tuple under a key. -/
def Store.update (st : Store) (key : Tuple) (ops : List UpdateOp) : Store :=
  st.map (fun t => if hasKey key t then ops.foldl applyOp t else t)

/-- Modelled from the spec: `end_vote` sets `active` (field 6) to false. -/
def Store.endVote (st : Store) (key : Tuple) : Store :=
  st.map (fun t => if hasKey key t then t.set 6 (Value.atom (Atom.bool false)) else t)

/-- Modelled from the spec: `delete_vote` removes the record keyed by the id. -/
def Store.deleteVote (st : Store) (key : Tuple) : Store :=
  st.filter (fun t => !hasKey key t)

/-- Modelled from the spec: the connection to the store when calls run one
after another and the store is reachable.  Reads leave the store as it is;
`Insert` refuses a key that is present; `Update` knows the assignment `=`;
`Call` knows `end_vote(id)` and `delete_vote(id, user)`, whose second argument
the handler has compared with the creator before the call. -/
def storeConn : Connection Store where
  Select := fun st space index offset limit _ key =>
    if space = "votes" ∧ index = "primary" then (st, Except.ok ⟨st.select offset limit key⟩)
    else (st, Except.error "no such space or index")
  Insert := fun st space tuple =>
    if space = "votes" then
      if st.any (hasKey (tuple.take 1)) then (st, Except.error "Duplicate key exists")
      else (st ++ [tuple], Except.ok ⟨[tuple]⟩)
    else (st, Except.error "no such space")
  Update := fun st space index key ops =>
    if space = "votes" ∧ index = "primary" then
      if ops.all (fun o => o.op = "=") then
        (st.update key ops, Except.ok ⟨(st.update key ops).select 0 1 key⟩)
      else (st, Except.error "unknown update operation")
    else (st, Except.error "no such space or index")
  Call := fun st functionName args =>
    if functionName = "end_vote" then (st.endVote (args.take 1), Except.ok ⟨[]⟩)
    else if functionName = "delete_vote" then (st.deleteVote (args.take 1), Except.ok ⟨[]⟩)
    else (st, Except.error "procedure is not defined")

/-! ## The store behind its wire format

`storeConn` hands a tuple back as it is stored, which fits tuples stored in
the form a read returns.  What `handleCreateVote` inserts is not in that form:
its maps are a `map[string]interface{}` and a `map[string]bool`, while the
handlers assert `map[interface{}]interface{}` on what they read.  The stored
form carries no Go types; a read gives every map back as
`map[interface{}]interface{}` and every integer with one Go type. -/

/-- Modelled from the spec: a scalar as a read returns it.  The Go type of a
returned integer, `intType`, is the choice of the client library, which is
not among the sources: `handleVote` asserts `int64`, the mocks of
`src/src/tests.go` return `int`. -/
def readAtom (intType : Int → Atom) : Atom → Atom
  | Atom.int n => intType n
  | Atom.int64 n => intType n
  | Atom.uint64 n => intType n
  | a => a

/-- Modelled from the spec: a tuple field as a read returns it, every map as
a `map[interface{}]interface{}`. -/
def readValue (intType : Int → Atom) : Value → Value
  | Value.atom a => Value.atom (readAtom intType a)
  | Value.imap m => Value.imap (m.map (fun e => (readAtom intType e.1, readAtom intType e.2)))
  | Value.mapStringAny m => Value.imap (m.map (fun e => (Atom.str e.1, readAtom intType e.2)))
  | Value.mapStringBool m => Value.imap (m.map (fun e => (Atom.str e.1, Atom.bool e.2)))

/-- Modelled from the spec: the sequential store of `storeConn` read through
the wire format. -/
def wireConn (intType : Int → Atom) : Connection Store where
  Select := fun st space index offset limit it key =>
    match storeConn.Select st space index offset limit it key with
    | (st1, Except.ok resp) =>
      (st1, Except.ok ⟨resp.Data.map (fun t => t.map (readValue intType))⟩)
    | (st1, Except.error e) => (st1, Except.error e)
  Insert := storeConn.Insert
  Update := storeConn.Update
  Call := storeConn.Call

/-- An integer returned as Go `uint64` when it is not negative and as `int64`
when it is. -/
def asUint64 (n : Int) : Atom := if 0 ≤ n then Atom.uint64 n.toNat else Atom.int64 n

/-! ## The order of a map range

A handler that reads a poll ranges over its options once, to write the lines
of the reply, and Go starts every range over a map at a place of its own
choice.  The maps of the embedding are lists and a range takes them in list
order, so the open order is put where the map comes from: a read through
`rangeConn intType ord` hands every map out with its entries in the order
`ord` gives them, and two runs may read through different orders. -/

/-- A tuple field whose map, if it is one, has its entries in the order `ord`
puts them. -/
def orderValue (ord : IMap → IMap) : Value → Value
  | Value.imap m => Value.imap (ord m)
  | v => v

/-- Modelled from the spec: the sequential store read through the wire format
as `wireConn intType` reads it, with the entries of every map in the order
`ord` puts them. -/
def rangeConn (intType : Int → Atom) (ord : IMap → IMap) : Connection Store where
  Select := fun st space index offset limit it key =>
    match (wireConn intType).Select st space index offset limit it key with
    | (st1, Except.ok resp) =>
      (st1, Except.ok ⟨resp.Data.map (fun t => t.map (orderValue ord))⟩)
    | (st1, Except.error e) => (st1, Except.error e)
  Insert := storeConn.Insert
  Update := storeConn.Update
  Call := storeConn.Call

/-! ## Runs of several calls -/

/-- One call of a handler; `createVote` carries the values of `uuid.New()` and
`time.Now().Unix()` of that call. -/
inductive Request where
  | voteInfo (post : Post)
  | createVote (uuid : String) (now : Int) (post : Post)
  | vote (post : Post)
  | deleteVote (post : Post)
  | endVote (post : Post)
  deriving DecidableEq, Repr

/-- The post of a request. -/
def Request.post : Request → Post
  | .voteInfo p => p
  | .createVote _ _ p => p
  | .vote p => p
  | .deleteVote p => p
  | .endVote p => p

/-- The handler call a request stands for. -/
def Request.handle {S : Type} (t : Connection S) : Request → S → S × List Event
  | .voteInfo p => handleVoteInfo t p
  | .createVote uuid now p => handleCreateVote t uuid now p
  | .vote p => handleVote t p
  | .deleteVote p => handleDeleteVote t p
  | .endVote p => handleEndVote t p

/-- The vote id a request addresses, as the handler's pattern extracts it;
a creation addresses none. -/
def Request.target : Request → Option String
  | .voteInfo p => reInfo p.Message
  | .createVote _ _ _ => none
  | .vote p => (reVote p.Message).map Prod.snd
  | .deleteVote p => reDelete p.Message
  | .endVote p => reEnd p.Message

/-- Calls run one after another; returns the final state and the events of
every call. -/
def runAll {S : Type} (t : Connection S) : List Request → S → S × List (List Event)
  | [], s => (s, [])
  | r :: rs, s => ((runAll t rs (r.handle t s).1).1, (r.handle t s).2 :: (runAll t rs (r.handle t s).1).2)

/-- A `handleVote` call in flight: not started, between its read and its
write, or returned. -/
inductive VoteCall where
  | waiting (post : Post)
  | reading (post : Post) (w : PendingWrite)
  | returned (events : List Event)
  deriving DecidableEq, Repr

/-- One step of a call: the read half, then the write half. -/
def VoteCall.step {S : Type} (t : Connection S) (c : VoteCall) (s : S) : S × VoteCall :=
  match c with
  | .waiting post =>
    match handleVoteRead t post s with
    | (s1, ReadOutcome.returned events) => (s1, VoteCall.returned events)
    | (s1, ReadOutcome.pending w) => (s1, VoteCall.reading post w)
  | .reading post w => ((handleVoteWrite t post w s).1, VoteCall.returned (handleVoteWrite t post w s).2)
  | .returned events => (s, VoteCall.returned events)

/-- Calls interleaved by a schedule: each entry names the call that takes its
next step. -/
def interleave {S : Type} (t : Connection S) : List Nat → S × List VoteCall → S × List VoteCall
  | [], x => x
  | i :: schedule, (s, calls) =>
    match calls[i]? with
    | none => interleave t schedule (s, calls)
    | some c => interleave t schedule ((c.step t s).1, calls.set i (c.step t s).2)

/-- The option a vote post names, as a map key. -/
def chosenBy (p : Post) : Option Atom := (reVote p.Message).map (fun x => Atom.str x.1)

/-- How many of the posts name the option `k`. -/
def votesFor (k : Atom) (ps : List Post) : Nat := ps.countP (fun p => chosenBy p == some k)

/-- The number a stored count stands for, whatever its integer type. -/
def tallyOf : Atom → Int
  | Atom.int n => n
  | Atom.int64 n => n
  | Atom.uint64 n => n
  | _ => 0

/-- Sum of the tallies of an options map. -/
def tallySum (options : IMap) : Int := (options.map (fun e => tallyOf e.2)).sum

/-- The options map of the tuple a key selects, if it is a map. -/
def Store.optionsOf (st : Store) (voteID : String) : Option IMap :=
  match st.select 0 1 (voteKey voteID) with
  | vote :: _ =>
    match vote[4]? with
    | some (Value.imap options) => some options
    | _ => none
  | [] => none

/-- A vote post that addresses the poll `voteID` and names one of the keys of
`options`. -/
def validVote (voteID : String) (options : IMap) (p : Post) : Bool :=
  match reVote p.Message with
  | some (l, i) => i == voteID && (mapGet (Atom.str l) options).isSome
  | none => false

/-- A count stored as `int64` that can grow by `room` inside the type. -/
def hasRoom (room : Nat) : Atom → Bool
  | Atom.int64 n => decide (-2 ^ 63 ≤ n ∧ n + room < 2 ^ 63)
  | _ => false

/-! ## The tally invariant -/

/-- The options of a stored tuple as a read returns them (empty when field
4 is no map). -/
def readOptions (intType : Int → Atom) (t : Tuple) : IMap :=
  match t[4]? with
  | some v =>
    match readValue intType v with
    | Value.imap m => m
    | _ => []
  | none => []

/-- The `votedUsers` of a stored tuple as `handleVote` takes them from a read. -/
def readVoters (intType : Int → Atom) (t : Tuple) : IMap :=
  match t[7]? with
  | some v => votedUsersOf (readValue intType v)
  | none => []

/-- The invariant I2 on one record, read with counts as `int64`: every tally
is at least 0, the tallies sum to the number of users in `votedUsers`, and no
user is recorded twice. -/
def tallyInvariant (t : Tuple) : Prop :=
  (∀ e ∈ readOptions Atom.int64 t, 0 ≤ tallyOf e.2) ∧
  tallySum (readOptions Atom.int64 t) = ((mapKeys (readVoters Atom.int64 t)).length : Int) ∧
  (mapKeys (readVoters Atom.int64 t)).Nodup

/-- What holds of the store after at most `n` calls: every tuple has the 8
fields of a poll, satisfies I2 and records at most `n` voters. -/
def storeInvariant (n : Nat) (st : Store) : Prop :=
  ∀ t ∈ st, t.length = 8 ∧ tallyInvariant t ∧ (readVoters Atom.int64 t).length ≤ n

/-- A map that a read with counts as `int64` returns unchanged. -/
def isRead (m : IMap) : Prop :=
  ∀ e ∈ m, readAtom Atom.int64 e.1 = e.1 ∧ readAtom Atom.int64 e.2 = e.2

/-! ## Commands as users write them -/

/-- A text between quotes. -/
def quoted (s : String) : List Char := dq :: (s.toList ++ [dq])

/-- Quoted labels separated by one space. -/
def optionsPart : List String → List Char
  | [] => []
  | [l] => quoted l
  | l :: l2 :: ls => quoted l ++ ' ' :: optionsPart (l2 :: ls)

/-- The command `/vote create "question" "label1" "label2" ...` of the help text. -/
def createCommand (question : String) (labels : List String) : String :=
  String.mk ("/vote create \"".toList ++ (question.toList ++ dq :: ' ' :: optionsPart labels))

/-- The command `/vote "option" ID` of the help text. -/
def voteCommand (option voteID : String) : String :=
  String.mk ("/vote \"".toList ++ (option.toList ++ dq :: ' ' :: voteID.toList))

/-- The command `/vote info ID` of the help text. -/
def infoCommand (voteID : String) : String := String.mk ("/vote info ".toList ++ voteID.toList)

/-- The command `/vote end ID` of the help text. -/
def endCommand (voteID : String) : String := String.mk ("/vote end ".toList ++ voteID.toList)

/-- The command `/vote delete ID` of the help text. -/
def deleteCommand (voteID : String) : String :=
  String.mk ("/vote delete ".toList ++ voteID.toList)

/-! ## Records and connections of the tests -/

/-- A connection whose four methods answer with fixed results, as the mocks
of `src/src/tests.go` do. -/
def fixedConn (select insert update call : Except String Response) : Connection Unit where
  Select := fun s _ _ _ _ _ _ => (s, select)
  Insert := fun s _ _ => (s, insert)
  Update := fun s _ _ _ _ => (s, update)
  Call := fun s _ _ => (s, call)

/-- The record the mocks of `TestHandleVote` and `TestHandleEndVote` return:
the counts `5` and `3` are Go `int`s and `votedUsers` is a `map[string]bool`. -/
def testRecord : Tuple :=
  [Value.atom (Atom.str "abc123"), Value.atom (Atom.str "channel1"),
   Value.atom (Atom.str "user1"), Value.atom (Atom.str "Test question?"),
   Value.imap [(Atom.str "Option1", Atom.int 5), (Atom.str "Option2", Atom.int 3)],
   Value.atom (Atom.int64 1234567890), Value.atom (Atom.bool true), Value.mapStringBool []]

/-- The mock of the case "successful vote" of `TestHandleVote`. -/
def testVoteConn : Connection Unit :=
  fixedConn (Except.ok ⟨[testRecord]⟩) (Except.ok ⟨[]⟩) (Except.ok ⟨[]⟩) (Except.ok ⟨[]⟩)

/-- The post of the case "successful vote" of `TestHandleVote`. -/
def testVotePost : Post := ⟨"/vote \"Option1\" abc123", "test-channel", "user1"⟩

/-- A poll as the store returns it, with `map[interface{}]interface{}` maps
and `int64` counts: the scenario poll of the specification. -/
def redBluePoll (red blue : Int) (active : Bool) (votedUsers : IMap) : Tuple :=
  [Value.atom (Atom.str "P1"), Value.atom (Atom.str "town-square"),
   Value.atom (Atom.str "creator"), Value.atom (Atom.str "Colour?"),
   Value.imap [(Atom.str "Red", Atom.int64 red), (Atom.str "Blue", Atom.int64 blue)],
   Value.atom (Atom.int64 1700000000), Value.atom (Atom.bool active), Value.imap votedUsers]

/-- Voter `A` casts `Red` on the scenario poll. -/
def voteRedA : Post := ⟨"/vote \"Red\" P1", "town-square", "A"⟩

/-- Voter `B` casts `Blue` on the scenario poll. -/
def voteBlueB : Post := ⟨"/vote \"Blue\" P1", "town-square", "B"⟩

/-- The post of the case "successful vote creation" of `TestHandleCreateVote`. -/
def testCreatePost : Post :=
  ⟨"/vote create \"Test question?\" \"Option1\" \"Option2\"", "test-channel", "user1"⟩

/-- The record `handleCreateVote` builds from `testCreatePost` when
`uuid.New()` gives `6ba7b810-9dad-11d1` at the time 1700000000. -/
def testCreated : Tuple :=
  [Value.atom (Atom.str "6ba7b8109dad11d1"), Value.atom (Atom.str "test-channel"),
   Value.atom (Atom.str "user1"), Value.atom (Atom.str "Test question?"),
   Value.mapStringAny [("Option1", Atom.int 0), ("Option2", Atom.int 0)],
   Value.atom (Atom.int64 1700000000), Value.atom (Atom.bool true), Value.mapStringBool []]

/-- The voters `A`, `B` and `C` as a read returns `votedUsers`. -/
def threeVoters : IMap :=
  [(Atom.str "A", Atom.bool true), (Atom.str "B", Atom.bool true),
   (Atom.str "C", Atom.bool true)]

/-- A create command whose two labels are the same label. -/
def duplicateLabelsPost : Post :=
  ⟨"/vote create \"Tea?\" \"Yes\" \"Yes\"", "test-channel", "user1"⟩

/-- The four reading requests on the scenario poll, by different users. -/
def laterRequests : List Request :=
  [Request.voteInfo ⟨"/vote info P1", "town-square", "A"⟩,
   Request.vote voteBlueB,
   Request.endVote ⟨"/vote end P1", "town-square", "creator"⟩,
   Request.deleteVote ⟨"/vote delete P1", "town-square", "creator"⟩]

/-- The post of the cases of `TestHandleEndVote`, from the creator. -/
def testEndPost : Post := ⟨"/vote end abc123", "test-channel", "user1"⟩

/-- The post of the cases of `TestHandleDeleteVote`. -/
def testDeletePost : Post := ⟨"/vote delete abc123", "test-channel", "user1"⟩

/-- A mock that finds the test record and fails every write with the error of
the case "delete error" of `TestHandleDeleteVote`. -/
def testFailConn : Connection Unit :=
  fixedConn (Except.ok ⟨[testRecord]⟩) (Except.error "tarantool error")
    (Except.error "tarantool error") (Except.error "tarantool error")

/-- A mock whose reads fail: the store is unreachable. -/
def unreachableConn : Connection Unit :=
  fixedConn (Except.error "connection refused") (Except.error "connection refused")
    (Except.error "connection refused") (Except.error "connection refused")

/-- The post of the case "invalid format" of `TestHandleCreateVote`. -/
def testInvalidCreatePost : Post := ⟨"/vote create invalid-format", "test-channel", "user1"⟩

/-- A poll is created with the options `Red` and `Blue`; then voters `A` and
`B` both vote `Red`. -/
def colourRun : List Request :=
  [Request.createVote "9f3c-77aa" 1700000000
     ⟨"/vote create \"Colour?\" \"Red\" \"Blue\"", "town-square", "creator"⟩,
   Request.vote ⟨"/vote \"Red\" 9f3c77aa", "town-square", "A"⟩,
   Request.vote ⟨"/vote \"Red\" 9f3c77aa", "town-square", "B"⟩]

/-- The record `colourRun` leaves in the store when reads return integers as
`int` or as `uint64`; `blue` is the untouched count of `Blue` as stored. -/
def colourRecord (blue : Atom) : Tuple :=
  [Value.atom (Atom.str "9f3c77aa"), Value.atom (Atom.str "town-square"),
   Value.atom (Atom.str "creator"), Value.atom (Atom.str "Colour?"),
   Value.imap [(Atom.str "Red", Atom.int64 1), (Atom.str "Blue", blue)],
   Value.atom (Atom.int64 1700000000), Value.atom (Atom.bool true),
   Value.imap [(Atom.str "A", Atom.bool true), (Atom.str "B", Atom.bool true)]]

/-! ## Theorems -/

/-! ### Maps -/

theorem mapGet_mapSet {κ β : Type} [DecidableEq κ] (k k2 : κ) (v : β) (m : GoMap κ β) :
    mapGet k2 (mapSet k v m) = if k2 = k then some v else mapGet k2 m := by
  induction m with
  | nil =>
    by_cases h : k2 = k
    · simp [mapSet, mapGet, h]
    · have h' : ¬ k = k2 := fun e => h e.symm
      simp [mapSet, mapGet, h, h']
  | cons e m ih =>
    obtain ⟨k1, v1⟩ := e
    by_cases h1 : k1 = k
    · by_cases h : k2 = k
      · simp [mapSet, mapGet, h1, h]
      · have h' : ¬ k = k2 := fun e => h e.symm
        simp [mapSet, mapGet, h1, h, h']
    · by_cases h : k2 = k
      · subst h
        simp [mapSet, mapGet, h1, ih]
      · by_cases h2 : k1 = k2
        · simp [mapSet, mapGet, h1, h, h2]
        · simp [mapSet, mapGet, h1, h, h2, ih]

theorem mem_of_mapGet {κ β : Type} [DecidableEq κ] (k : κ) (v : β) (m : GoMap κ β)
    (h : mapGet k m = some v) : (k, v) ∈ m := by
  induction m with
  | nil => simp [mapGet] at h
  | cons e m ih =>
    obtain ⟨k1, v1⟩ := e
    by_cases h1 : k1 = k
    · simp only [mapGet, h1, if_true, Option.some.injEq] at h
      simp [h1, h]
    · simp only [mapGet, h1, if_false] at h
      exact List.mem_cons_of_mem _ (ih h)

theorem mem_mapSet {κ β : Type} [DecidableEq κ] (k : κ) (v : β) (m : GoMap κ β)
    (e : κ × β) (h : e ∈ mapSet k v m) : e = (k, v) ∨ e ∈ m := by
  induction m with
  | nil => simpa [mapSet] using h
  | cons e1 m ih =>
    obtain ⟨k1, v1⟩ := e1
    by_cases h1 : k1 = k
    · simp only [mapSet, h1, if_true, List.mem_cons] at h
      rcases h with h | h
      · exact Or.inl h
      · exact Or.inr (List.mem_cons_of_mem _ h)
    · simp only [mapSet, h1, if_false, List.mem_cons] at h
      rcases h with h | h
      · exact Or.inr (h ▸ List.mem_cons_self _ _)
      · rcases ih h with h2 | h2
        · exact Or.inl h2
        · exact Or.inr (List.mem_cons_of_mem _ h2)

theorem mem_mapKeys_mapSet {κ β : Type} [DecidableEq κ] (k x : κ) (v : β) (m : GoMap κ β) :
    x ∈ mapKeys (mapSet k v m) ↔ x = k ∨ x ∈ mapKeys m := by
  induction m with
  | nil => simp [mapSet, mapKeys]
  | cons e m ih =>
    obtain ⟨k1, v1⟩ := e
    by_cases h : k1 = k
    · subst h
      simp [mapSet, mapKeys]
    · simp only [mapKeys] at ih
      simp [mapSet, mapKeys, h, ih]
      tauto

theorem nodup_mapKeys_mapSet {κ β : Type} [DecidableEq κ] (k : κ) (v : β) (m : GoMap κ β)
    (h : (mapKeys m).Nodup) : (mapKeys (mapSet k v m)).Nodup := by
  induction m with
  | nil => simp [mapSet, mapKeys]
  | cons e m ih =>
    obtain ⟨k1, v1⟩ := e
    have hk : k1 ∉ mapKeys m ∧ (mapKeys m).Nodup := by
      simpa [mapKeys] using h
    by_cases h1 : k1 = k
    · subst h1
      simpa [mapSet, mapKeys] using h
    · have hmem : k1 ∉ mapKeys (mapSet k v m) := by
        rw [mem_mapKeys_mapSet]
        rintro (e | e)
        · exact h1 e
        · exact hk.1 e
      have := ih hk.2
      simp only [mapKeys] at this hmem
      simp [mapSet, mapKeys, h1, this]
      simpa using hmem

theorem tallySum_mapSet (k : Atom) (n : Int) (v : Atom) (m : IMap)
    (h : mapGet k m = some v) :
    tallySum (mapSet k (Atom.int64 n) m) = tallySum m - tallyOf v + n := by
  induction m with
  | nil => simp [mapGet] at h
  | cons e m ih =>
    obtain ⟨k1, v1⟩ := e
    by_cases h1 : k1 = k
    · simp [mapGet, h1] at h
      subst h
      simp only [mapSet, h1, tallySum, tallyOf, if_true, List.map_cons, List.sum_cons]
      ring
    · simp [mapGet, h1] at h
      have := ih h
      simp only [tallySum] at this
      simp [mapSet, h1, tallySum, this]
      ring

theorem wrapInt64_of_bounds (x : Int) (h1 : -2 ^ 63 ≤ x) (h2 : x < 2 ^ 63) :
    wrapInt64 x = x := by
  unfold wrapInt64
  omega

theorem hasRoom_elim (room : Nat) (c : Atom) (h : hasRoom room c = true) :
    ∃ n : Int, c = Atom.int64 n ∧ -2 ^ 63 ≤ n ∧ n + room < 2 ^ 63 := by
  cases c <;> simp [hasRoom] at h
  exact ⟨_, rfl, h.1, h.2⟩

theorem validVote_elim (voteID : String) (options : IMap) (p : Post)
    (h : validVote voteID options p = true) :
    ∃ l, reVote p.Message = some (l, voteID) ∧ (mapGet (Atom.str l) options).isSome := by
  unfold validVote at h
  split at h
  · rename_i l i hparse
    simp only [Bool.and_eq_true, beq_iff_eq] at h
    exact ⟨l, by rw [hparse, h.1], h.2⟩
  · simp at h

theorem votesFor_cons (k : Atom) (p : Post) (ps : List Post) :
    votesFor k (p :: ps) = votesFor k ps + (if chosenBy p = some k then 1 else 0) := by
  simp [votesFor, List.countP_cons]

/-! ### The options of a new poll -/

theorem buildOptions_aux (labels : List String) : ∀ m : GoMap String Atom,
    (mapKeys m).Nodup → (∀ e ∈ m, e.2 = Atom.int 0) →
    (∀ l, l ∈ mapKeys (labels.foldl (fun m l => mapSet l (Atom.int 0) m) m) ↔
      l ∈ labels ∨ l ∈ mapKeys m) ∧
    (mapKeys (labels.foldl (fun m l => mapSet l (Atom.int 0) m) m)).Nodup ∧
    (∀ e ∈ labels.foldl (fun m l => mapSet l (Atom.int 0) m) m, e.2 = Atom.int 0) := by
  induction labels with
  | nil =>
    intro m h1 h2
    exact ⟨by simp, h1, h2⟩
  | cons a labels ih =>
    intro m h1 h2
    have hval : ∀ e ∈ mapSet a (Atom.int 0) m, e.2 = Atom.int 0 := by
      intro e he
      rcases mem_mapSet a _ m e he with h | h
      · rw [h]
      · exact h2 e h
    obtain ⟨i1, i2, i3⟩ := ih (mapSet a (Atom.int 0) m) (nodup_mapKeys_mapSet a _ m h1) hval
    refine ⟨?_, i2, i3⟩
    intro l
    simp only [List.foldl_cons, i1, mem_mapKeys_mapSet, List.mem_cons]
    tauto

theorem buildOptions_spec (labels : List String) :
    (∀ l, l ∈ mapKeys (buildOptions labels) ↔ l ∈ labels) ∧
    (mapKeys (buildOptions labels)).Nodup ∧
    (∀ e ∈ buildOptions labels, e.2 = Atom.int 0) := by
  obtain ⟨h1, h2, h3⟩ := buildOptions_aux labels [] (by simp [mapKeys]) (by simp)
  refine ⟨?_, h2, h3⟩
  intro l
  simpa [mapKeys] using h1 l

theorem buildOptions_length (labels : List String) :
    (buildOptions labels).length = labels.toFinset.card := by
  obtain ⟨h1, h2, _⟩ := buildOptions_spec labels
  have : (mapKeys (buildOptions labels)).toFinset = labels.toFinset := by
    ext l
    simp [h1]
  rw [← this, List.toFinset_card_of_nodup h2]
  simp [mapKeys]

/-! ### The patterns on commands written as the help text shows -/

theorem findLeftmost_of_some {α : Type} (f : List Char → Option α) (s : List Char) (r : α)
    (h : f s = some r) : findLeftmost f s = some r := by
  cases s <;> simp [findLeftmost, h]

theorem dropLit_append (p rest : List Char) : dropLit p (p ++ rest) = some rest := by
  induction p with
  | nil => cases rest <;> rfl
  | cons c p ih => simp [dropLit, ih]

theorem quotedGroup_append (g rest : List Char) (hg : g ≠ []) (hq : dq ∉ g) :
    quotedGroup (g ++ dq :: rest) = some (g, rest) := by
  have hall : ∀ a ∈ g, (a != dq) = true := by
    intro a ha
    simp only [bne_iff_ne, ne_eq]
    intro e
    exact hq (e ▸ ha)
  have h1 : (g ++ dq :: rest).takeWhile (fun c => c != dq) = g := by
    rw [List.takeWhile_append_of_pos hall]
    simp
  have h2 : (g ++ dq :: rest).dropWhile (fun c => c != dq) = dq :: rest := by
    rw [List.dropWhile_append_of_pos hall]
    simp
  unfold quotedGroup
  rw [List.span_eq_take_drop, h1, h2]
  cases g with
  | nil => exact absurd rfl hg
  | cons a g => rfl

theorem lastQuoteEnd_append_dq (xs : List Char) :
    lastQuoteEnd (xs ++ [dq]) = some (xs.length + 1) := by
  induction xs with
  | nil => simp [lastQuoteEnd]
  | cons x xs ih => simp [lastQuoteEnd, ih]

theorem optionsGroup_quoted (inner : List Char) (hne : inner ≠ []) (hlf : lf ∉ inner) :
    optionsGroup (dq :: (inner ++ [dq])) = some (dq :: (inner ++ [dq])) := by
  have hall : ∀ a ∈ inner ++ [dq], (a != lf) = true := by
    intro a ha
    simp only [bne_iff_ne, ne_eq]
    rcases List.mem_append.1 ha with h | h
    · intro e
      exact hlf (e ▸ h)
    · have : a = dq := by simpa using h
      rw [this]
      decide
  have h1 : (inner ++ [dq]).takeWhile (fun x => x != lf) = inner ++ [dq] :=
    List.takeWhile_eq_self_iff.2 hall
  cases inner with
  | nil => exact absurd rfl hne
  | cons x line =>
    have h2 : (x :: (line ++ [dq])).takeWhile (fun x => x != lf) = x :: (line ++ [dq]) := h1
    simp only [optionsGroup, if_true, List.cons_append, h2, lastQuoteEnd_append_dq]
    simp

theorem optionsPart_shape (labels : List String) (hne : labels ≠ [])
    (hl : ∀ l ∈ labels, l.toList ≠ [] ∧ dq ∉ l.toList ∧ lf ∉ l.toList) :
    ∃ inner, optionsPart labels = dq :: (inner ++ [dq]) ∧ inner ≠ [] ∧ lf ∉ inner := by
  induction labels with
  | nil => exact absurd rfl hne
  | cons l ls ih =>
    obtain ⟨h1, _, h3⟩ := hl l (List.mem_cons_self _ _)
    cases ls with
    | nil => exact ⟨l.toList, rfl, h1, h3⟩
    | cons l2 ls =>
      obtain ⟨inner, hin, _, hlf⟩ := ih (by simp) (fun x hx => hl x (List.mem_cons_of_mem _ hx))
      refine ⟨l.toList ++ dq :: ' ' :: dq :: inner, ?_, by simp, ?_⟩
      · simp [optionsPart, quoted, hin]
      · simp only [List.mem_append, List.mem_cons, not_or]
        exact ⟨h3, by decide, by decide, by decide, hlf⟩

theorem scanOptions_run (l rest : List Char) (hq : dq ∉ l) :
    ∀ r : List Char, (r ≠ [] ∨ l ≠ []) →
      scanOptions (some r) (l ++ dq :: rest) =
        String.mk (r.reverse ++ l) :: scanOptions none rest := by
  induction l with
  | nil =>
    intro r hr
    cases r with
    | nil => simp at hr
    | cons a r => simp [scanOptions]
  | cons c l ih =>
    intro r _
    have hc : c ≠ dq := fun e => hq (e ▸ List.mem_cons_self _ _)
    have hq2 : dq ∉ l := fun h => hq (List.mem_cons_of_mem _ h)
    have := ih hq2 (c :: r) (Or.inl (by simp))
    simp [scanOptions, hc, this]

theorem scanOptions_quoted (l : String) (rest : List Char) (h1 : l.toList ≠ [])
    (h2 : dq ∉ l.toList) :
    scanOptions none (quoted l ++ rest) = l :: scanOptions none rest := by
  have hrun := scanOptions_run l.toList rest h2 [] (Or.inr h1)
  have e : quoted l ++ rest = dq :: (l.toList ++ dq :: rest) := by simp [quoted]
  have hstep : scanOptions none (dq :: (l.toList ++ dq :: rest)) =
      scanOptions (some []) (l.toList ++ dq :: rest) := by
    simp [scanOptions]
  rw [e, hstep, hrun]
  rfl

theorem scanOptions_optionsPart (labels : List String)
    (hl : ∀ l ∈ labels, l.toList ≠ [] ∧ dq ∉ l.toList ∧ lf ∉ l.toList) :
    scanOptions none (optionsPart labels) = labels := by
  induction labels with
  | nil => rfl
  | cons l ls ih =>
    obtain ⟨h1, h2, _⟩ := hl l (List.mem_cons_self _ _)
    cases ls with
    | nil =>
      have := scanOptions_quoted l [] h1 h2
      simpa [optionsPart, scanOptions] using this
    | cons l2 ls =>
      have hrec := ih (fun x hx => hl x (List.mem_cons_of_mem _ hx))
      have hsp : scanOptions none (' ' :: optionsPart (l2 :: ls)) =
          scanOptions none (optionsPart (l2 :: ls)) := by
        have : ¬ (' ' = dq) := by decide
        simp [scanOptions, this]
      simp only [optionsPart]
      rw [scanOptions_quoted l _ h1 h2, hsp, hrec]

/-- The two patterns of `handleCreateVote` read a command written as
`/vote create "question" "label1" ... "labeln"` back as its question and its
labels, when question and labels are non-empty and free of quotes and the
labels free of line feeds. -/
theorem reCreate_createCommand (question : String) (labels : List String)
    (hq : question.toList ≠ []) (hqq : dq ∉ question.toList) (hne : labels ≠ [])
    (hl : ∀ l ∈ labels, l.toList ≠ [] ∧ dq ∉ l.toList ∧ lf ∉ l.toList) :
    reCreate (createCommand question labels) =
      some (question, String.mk (optionsPart labels)) ∧
    optionRe (String.mk (optionsPart labels)) = labels := by
  constructor
  · obtain ⟨inner, hin, hne2, hlf⟩ := optionsPart_shape labels hne hl
    apply findLeftmost_of_some
    have h1 := quotedGroup_append question.toList (' ' :: optionsPart labels) hq hqq
    have h2 := optionsGroup_quoted inner hne2 hlf
    rw [← hin] at h2
    show reCreateAt ("/vote create \"".toList ++
      (question.toList ++ dq :: ' ' :: optionsPart labels)) = _
    have h3 : dropLit [' '] (' ' :: optionsPart labels) = some (optionsPart labels) :=
      dropLit_append [' '] _
    simp only [reCreateAt, dropLit_append, h1, h3, h2]
    rfl
  · exact scanOptions_optionsPart labels hl

theorem wordGroup_word (w : String) (hne : w.toList ≠ [])
    (hw : ∀ c ∈ w.toList, isWordChar c = true) : wordGroup w.toList = some w := by
  have h : w.toList.takeWhile isWordChar = w.toList := List.takeWhile_eq_self_iff.2 hw
  unfold wordGroup
  rw [h]
  cases hl : w.toList with
  | nil => exact absurd hl hne
  | cons c cs =>
    simp only
    rw [← hl]
    rfl

/-- The patterns of `handleVoteInfo`, `handleEndVote` and `handleDeleteVote`
read the id of a command written as the help text shows, when the id is a
non-empty word. -/
theorem reInfo_infoCommand (voteID : String) (hne : voteID.toList ≠ [])
    (hw : ∀ c ∈ voteID.toList, isWordChar c = true) :
    reInfo (infoCommand voteID) = some voteID ∧
    reEnd (endCommand voteID) = some voteID ∧
    reDelete (deleteCommand voteID) = some voteID := by
  have h := wordGroup_word voteID hne hw
  refine ⟨?_, ?_, ?_⟩
  · apply findLeftmost_of_some
    show reInfoAt ("/vote info ".toList ++ voteID.toList) = _
    simp only [reInfoAt, dropLit_append, h]
  · apply findLeftmost_of_some
    show reEndAt ("/vote end ".toList ++ voteID.toList) = _
    simp only [reEndAt, dropLit_append, h]
  · apply findLeftmost_of_some
    show reDeleteAt ("/vote delete ".toList ++ voteID.toList) = _
    simp only [reDeleteAt, dropLit_append, h]

/-- The pattern of `handleVote` reads option and id of a command written as
the help text shows, when the option is non-empty and free of quotes and the
id is a non-empty word. -/
theorem reVote_voteCommand (option voteID : String) (ho : option.toList ≠ [])
    (hq : dq ∉ option.toList) (hne : voteID.toList ≠ [])
    (hw : ∀ c ∈ voteID.toList, isWordChar c = true) :
    reVote (voteCommand option voteID) = some (option, voteID) := by
  have h := wordGroup_word voteID hne hw
  have h1 := quotedGroup_append option.toList (' ' :: voteID.toList) ho hq
  have h3 : dropLit [' '] (' ' :: voteID.toList) = some voteID.toList :=
    dropLit_append [' '] _
  apply findLeftmost_of_some
  show reVoteAt ("/vote \"".toList ++ (option.toList ++ dq :: ' ' :: voteID.toList)) = _
  simp only [reVoteAt, dropLit_append, h1, h3, h]
  rfl

/-! ### The store -/

theorem storeConn_select (st : Store) (offset limit : Nat) (it : Iter) (key : Tuple) :
    storeConn.Select st "votes" "primary" offset limit it key =
      (st, Except.ok ⟨st.select offset limit key⟩) := by
  simp [storeConn]

theorem hasKey_voteKey_set (voteID : String) (t : Tuple) (n : Nat) (v : Value) :
    hasKey (voteKey voteID) (t.set (n + 1) v) = hasKey (voteKey voteID) t := by
  cases t <;> simp [hasKey, voteKey]

theorem filter_endVote (st : Store) (voteID : String) :
    (st.endVote (voteKey voteID)).filter (hasKey (voteKey voteID)) =
      (st.filter (hasKey (voteKey voteID))).map
        (fun t => t.set 6 (Value.atom (Atom.bool false))) := by
  induction st with
  | nil => rfl
  | cons t st ih =>
    by_cases h : hasKey (voteKey voteID) t
    · have h2 := hasKey_voteKey_set voteID t 5 (Value.atom (Atom.bool false))
      simp only [Store.endVote] at ih ⊢
      simp [List.filter_cons, h, h2, ih]
    · simp only [Store.endVote] at ih ⊢
      simp [List.filter_cons, h, ih]

theorem select_endVote (st : Store) (voteID : String) :
    (st.endVote (voteKey voteID)).select 0 1 (voteKey voteID) =
      (st.select 0 1 (voteKey voteID)).map
        (fun t => t.set 6 (Value.atom (Atom.bool false))) := by
  simp [Store.select, filter_endVote, List.map_take]

theorem select_deleteVote (st : Store) (key : Tuple) :
    (st.deleteVote key).select 0 1 key = [] := by
  have : (st.deleteVote key).filter (hasKey key) = [] := by
    simp [Store.deleteVote, List.filter_filter]
  simp [Store.select, this]

theorem filter_update (st : Store) (voteID : String) (o v : IMap) :
    (st.update (voteKey voteID) (updateOps o v)).filter (hasKey (voteKey voteID)) =
      (st.filter (hasKey (voteKey voteID))).map
        (fun t => (t.set 4 (Value.imap o)).set 7 (Value.imap v)) := by
  induction st with
  | nil => rfl
  | cons t st ih =>
    have h2 : hasKey (voteKey voteID) ((t.set 4 (Value.imap o)).set 7 (Value.imap v)) =
        hasKey (voteKey voteID) t := by
      rw [hasKey_voteKey_set, hasKey_voteKey_set]
    have hf : ∀ u : Tuple, List.foldl applyOp u (updateOps o v) =
        (u.set 4 (Value.imap o)).set 7 (Value.imap v) := fun _ => rfl
    simp only [Store.update, hf] at ih ⊢
    by_cases h : hasKey (voteKey voteID) t
    · rw [h] at h2
      simp [List.filter_cons, h, h2, ih]
    · simp [List.filter_cons, h, ih]

theorem select_update (st : Store) (voteID : String) (o v : IMap) :
    (st.update (voteKey voteID) (updateOps o v)).select 0 1 (voteKey voteID) =
      (st.select 0 1 (voteKey voteID)).map
        (fun t => (t.set 4 (Value.imap o)).set 7 (Value.imap v)) := by
  simp [Store.select, filter_update, List.map_take]

theorem optionsOf_of_select (st : Store) (voteID : String) (stored : Tuple) (options : IMap)
    (hstored : st.select 0 1 (voteKey voteID) = [stored])
    (hoptions : stored[4]? = some (Value.imap options)) :
    st.optionsOf voteID = some options := by
  simp [Store.optionsOf, hstored, hoptions]

/-! ### Single handler runs -/

theorem handleVote_store (st : Store) (post : Post) (option voteID : String)
    (stored : Tuple) (options : IMap) (v7 : Value) (count : Atom)
    (hparse : reVote post.Message = some (option, voteID))
    (hstored : st.select 0 1 (voteKey voteID) = [stored])
    (hactive : stored[6]? = some (Value.atom (Atom.bool true)))
    (hvoted : stored[7]? = some v7)
    (hfresh : mapGet (Atom.str post.UserId) (votedUsersOf v7) = none)
    (hoptions : stored[4]? = some (Value.imap options))
    (hlabel : mapGet (Atom.str option) options = some count) :
    handleVote storeConn post st =
      (st.update (voteKey voteID)
          (updateOps
            (mapSet (Atom.str option) (Atom.int64 (wrapInt64 (currentCountOf count + 1))) options)
            (mapSet (Atom.str post.UserId) (Atom.bool true) (votedUsersOf v7))),
        [selectEvent voteID,
         updateEvent voteID
           (mapSet (Atom.str option) (Atom.int64 (wrapInt64 (currentCountOf count + 1))) options)
           (mapSet (Atom.str post.UserId) (Atom.bool true) (votedUsersOf v7)),
         Event.CreatePost post.ChannelId (votedMessage
           (mapSet (Atom.str option) (Atom.int64 (wrapInt64 (currentCountOf count + 1)))
             options))]) := by
  simp [handleVote, handleVoteRead, handleVoteWrite, hparse, storeConn_select, hstored, checkVote,
    hactive, hvoted, hfresh, hoptions, hlabel, sendMessage]
  simp [storeConn, updateOps]

theorem handle_of_absent (st : Store) (voteID : String) (r : Request)
    (habsent : st.select 0 1 (voteKey voteID) = [])
    (htarget : r.target = some voteID) :
    r.handle storeConn st =
      (st, [selectEvent voteID, Event.CreatePost r.post.ChannelId msgNotFound]) := by
  cases r with
  | voteInfo p =>
    simp only [Request.target] at htarget
    simp [Request.handle, Request.post, handleVoteInfo, htarget, storeConn_select, habsent,
      sendMessage]
  | createVote u n p => simp [Request.target] at htarget
  | vote p =>
    simp only [Request.target, Option.map_eq_some'] at htarget
    obtain ⟨⟨o, i⟩, h1, h2⟩ := htarget
    simp only at h2
    subst h2
    simp [Request.handle, Request.post, handleVote, handleVoteRead, h1, storeConn_select,
      habsent, sendMessage]
  | deleteVote p =>
    simp only [Request.target] at htarget
    simp [Request.handle, Request.post, handleDeleteVote, htarget, storeConn_select, habsent,
      sendMessage]
  | endVote p =>
    simp only [Request.target] at htarget
    simp [Request.handle, Request.post, handleEndVote, htarget, storeConn_select, habsent,
      sendMessage]

theorem runAll_of_absent (st : Store) (voteID : String) (rs : List Request)
    (habsent : st.select 0 1 (voteKey voteID) = [])
    (htarget : ∀ r ∈ rs, r.target = some voteID) :
    runAll storeConn rs st =
      (st, rs.map (fun r =>
        [selectEvent voteID, Event.CreatePost r.post.ChannelId msgNotFound])) := by
  induction rs with
  | nil => rfl
  | cons r rs ih =>
    have h1 := handle_of_absent st voteID r habsent (htarget r (List.mem_cons_self _ _))
    have h2 := ih (fun x hx => htarget x (List.mem_cons_of_mem _ hx))
    simp [runAll, h1, h2]

theorem handleCreateVote_accepted {S : Type} (t : Connection S) (s : S) (uuid : String)
    (now : Int) (post : Post) (question optionsStr : String)
    (hparse : reCreate post.Message = some (question, optionsStr))
    (haccepted : 2 ≤ (optionRe optionsStr).toFinset.card) :
    ∃ reply, handleCreateVote t uuid now post s =
      ((t.Insert s "votes" (voteData (newVoteID uuid) post question
          (buildOptions (optionRe optionsStr)) now)).1,
        [Event.Insert "votes" (voteData (newVoteID uuid) post question
          (buildOptions (optionRe optionsStr)) now),
         Event.CreatePost post.ChannelId reply]) := by
  have hlen := buildOptions_length (optionRe optionsStr)
  have h : ¬ (optionRe optionsStr).toFinset.card < 2 := by omega
  unfold handleCreateVote
  simp only [hparse, hlen, h, if_false]
  cases hI : t.Insert s "votes" (voteData (newVoteID uuid) post question
      (buildOptions (optionRe optionsStr)) now) with
  | mk s1 r =>
    cases r with
    | error e => exact ⟨_, rfl⟩
    | ok a => exact ⟨_, rfl⟩

theorem handleCreateVote_refused {S : Type} (t : Connection S) (s : S) (uuid : String)
    (now : Int) (post : Post) (question optionsStr : String)
    (hparse : reCreate post.Message = some (question, optionsStr))
    (hfew : (optionRe optionsStr).toFinset.card < 2) :
    handleCreateVote t uuid now post s =
      (s, [Event.CreatePost post.ChannelId msgTooFewOptions]) := by
  have hlen := buildOptions_length (optionRe optionsStr)
  simp [handleCreateVote, hparse, hlen, hfew, sendMessage]

theorem filter_of_any_false (st : Store) (key : Tuple) (h : st.any (hasKey key) = false) :
    st.filter (hasKey key) = [] := by
  rw [List.filter_eq_nil_iff]
  intro a ha hk
  have : st.any (hasKey key) = true := List.any_eq_true.2 ⟨a, ha, hk⟩
  rw [h] at this
  exact Bool.noConfusion this

theorem storeConn_insert_fresh (st : Store) (voteID : String) (rest : Tuple)
    (h : st.any (hasKey (voteKey voteID)) = false) :
    storeConn.Insert st "votes" (Value.atom (Atom.str voteID) :: rest) =
      (st ++ [Value.atom (Atom.str voteID) :: rest],
        Except.ok ⟨[Value.atom (Atom.str voteID) :: rest]⟩) := by
  simpa [storeConn, voteKey] using h

theorem select_inserted (st : Store) (voteID : String) (rest : Tuple)
    (h : st.any (hasKey (voteKey voteID)) = false) :
    (st ++ [Value.atom (Atom.str voteID) :: rest]).select 0 1 (voteKey voteID) =
      [Value.atom (Atom.str voteID) :: rest] := by
  have hk : hasKey (voteKey voteID) (Value.atom (Atom.str voteID) :: rest) = true := by
    simp [hasKey, voteKey]
  simp [Store.select, List.filter_append, filter_of_any_false st _ h, List.filter_cons, hk]

theorem runAll_votes_closed (st : Store) (voteID : String) (stored : Tuple) (ps : List Post)
    (hstored : st.select 0 1 (voteKey voteID) = [stored])
    (hflag : stored[6]? = some (Value.atom (Atom.bool false)))
    (hps : ∀ p ∈ ps, (Request.vote p).target = some voteID) :
    runAll storeConn (ps.map Request.vote) st =
      (st, ps.map (fun p =>
        [selectEvent voteID, Event.CreatePost p.ChannelId msgVoteClosed])) := by
  induction ps with
  | nil => rfl
  | cons p ps ih =>
    have h2 := ih (fun x hx => hps x (List.mem_cons_of_mem _ hx))
    have h1 : handleVote storeConn p st =
        (st, [selectEvent voteID, Event.CreatePost p.ChannelId msgVoteClosed]) := by
      have ht := hps p (List.mem_cons_self _ _)
      simp only [Request.target, Option.map_eq_some'] at ht
      obtain ⟨⟨o, i⟩, hp, hi⟩ := ht
      simp only at hi
      subst hi
      simp [handleVote, handleVoteRead, hp, storeConn_select, hstored, checkVote, hflag,
        sendMessage]
    simp [runAll, Request.handle, h1, h2]

/-- A call that takes its two steps without another call in between is one
run of `handleVote`. -/
theorem interleave_single {S : Type} (t : Connection S) (post : Post) (s : S) :
    interleave t [0, 0] (s, [VoteCall.waiting post]) =
      ((handleVote t post s).1, [VoteCall.returned (handleVote t post s).2]) := by
  simp only [interleave, handleVote, VoteCall.step, List.getElem?_cons_zero, List.set_cons_zero]
  cases h : handleVoteRead t post s with
  | mk s1 r =>
    cases r with
    | returned events => simp [VoteCall.step]
    | pending w => simp [VoteCall.step]

/-! ### Votes one after another -/

theorem sequential_votes_aux (voteID : String) (ps : List Post) :
    ∀ (st : Store) (stored : Tuple) (options : IMap) (v7 : Value),
      st.select 0 1 (voteKey voteID) = [stored] →
      stored[6]? = some (Value.atom (Atom.bool true)) →
      stored[4]? = some (Value.imap options) →
      stored[7]? = some v7 →
      (∀ p ∈ ps, validVote voteID options p = true) →
      (ps.map Post.UserId).Nodup →
      (∀ p ∈ ps, mapGet (Atom.str p.UserId) (votedUsersOf v7) = none) →
      (∀ e ∈ options, hasRoom ps.length e.2 = true) →
      ∃ final : IMap,
        Store.optionsOf (runAll storeConn (ps.map Request.vote) st).1 voteID = some final ∧
        (∀ k n, mapGet k options = some (Atom.int64 n) →
          mapGet k final = some (Atom.int64 (n + votesFor k ps))) ∧
        tallySum final = tallySum options + ps.length ∧
        (∀ evs ∈ (runAll storeConn (ps.map Request.vote) st).2, ∃ o v ch,
          evs = [selectEvent voteID, updateEvent voteID o v,
            Event.CreatePost ch (votedMessage o)]) := by
  induction ps with
  | nil =>
    intro st stored options v7 hstored _ hoptions _ _ _ _ _
    refine ⟨options, ?_, ?_, ?_, ?_⟩
    · simpa [runAll] using optionsOf_of_select st voteID stored options hstored hoptions
    · intro k n h
      simpa [votesFor] using h
    · simp
    · simp [runAll]
  | cons p ps ih =>
    intro st stored options v7 hstored hactive hoptions hvoted hposts hnodup hfresh hbound
    obtain ⟨l, hparse, hl⟩ := validVote_elim _ _ _ (hposts p (List.mem_cons_self _ _))
    obtain ⟨c, hc⟩ := Option.isSome_iff_exists.1 hl
    obtain ⟨n, hcn, hlo, hhi⟩ := hasRoom_elim _ _ (hbound _ (mem_of_mapGet _ _ _ hc))
    subst hcn
    have hlen : (p :: ps).length = ps.length + 1 := rfl
    rw [hlen] at hhi
    push_cast at hhi
    have hwrap : wrapInt64 (currentCountOf (Atom.int64 n) + 1) = n + 1 := by
      simp only [currentCountOf]
      apply wrapInt64_of_bounds <;> omega
    have hrun := handleVote_store st p l voteID stored options v7 (Atom.int64 n) hparse hstored
      hactive hvoted (hfresh p (List.mem_cons_self _ _)) hoptions hc
    rw [hwrap] at hrun
    have h4 : 4 < stored.length := (List.getElem?_eq_some_iff.1 hoptions).1
    have h7 : 7 < stored.length := (List.getElem?_eq_some_iff.1 hvoted).1
    set o1 := mapSet (Atom.str l) (Atom.int64 (n + 1)) options with ho1
    set v1 := mapSet (Atom.str p.UserId) (Atom.bool true) (votedUsersOf v7) with hv1
    set st1 := st.update (voteKey voteID) (updateOps o1 v1) with hst1
    have hsel1 : st1.select 0 1 (voteKey voteID) =
        [(stored.set 4 (Value.imap o1)).set 7 (Value.imap v1)] := by
      rw [hst1, select_update, hstored]
      rfl
    have hact1 : ((stored.set 4 (Value.imap o1)).set 7 (Value.imap v1))[6]? =
        some (Value.atom (Atom.bool true)) := by
      simp [List.getElem?_set, hactive]
    have hopt1 : ((stored.set 4 (Value.imap o1)).set 7 (Value.imap v1))[4]? =
        some (Value.imap o1) := by
      simp [List.getElem?_set, h4]
    have hvot1 : ((stored.set 4 (Value.imap o1)).set 7 (Value.imap v1))[7]? =
        some (Value.imap v1) := by
      simp [List.getElem?_set, h7]
    have hnd : p.UserId ∉ ps.map Post.UserId ∧ (ps.map Post.UserId).Nodup := by
      simpa using hnodup
    obtain ⟨final, hfin, hcount, hsum, hevs⟩ := ih st1 _ o1 (Value.imap v1) hsel1 hact1 hopt1 hvot1
      (by
        intro q hq
        obtain ⟨l2, hp2, hl2⟩ := validVote_elim _ _ _ (hposts q (List.mem_cons_of_mem _ hq))
        have hsome : (mapGet (Atom.str l2) o1).isSome = true := by
          rw [ho1, mapGet_mapSet]
          split
          · rfl
          · exact hl2
        simp [validVote, hp2, hsome])
      hnd.2
      (by
        intro q hq
        have hne : q.UserId ≠ p.UserId := by
          intro e
          exact hnd.1 (e ▸ List.mem_map_of_mem _ hq)
        have hne2 : Atom.str q.UserId ≠ Atom.str p.UserId := by
          intro e
          exact hne (Atom.str.inj e)
        simp only [votedUsersOf, hv1, mapGet_mapSet, hne2, if_false]
        exact hfresh q (List.mem_cons_of_mem _ hq))
      (by
        intro e he
        rcases mem_mapSet _ _ _ e he with h | h
        · rw [h]
          simp only [hasRoom, decide_eq_true_eq]
          constructor <;> omega
        · obtain ⟨m, hm, hmlo, hmhi⟩ := hasRoom_elim _ _ (hbound e h)
          rw [hlen] at hmhi
          push_cast at hmhi
          rw [hm]
          simp only [hasRoom, decide_eq_true_eq]
          constructor <;> omega)
    have hrunAll : runAll storeConn ((p :: ps).map Request.vote) st =
        ((runAll storeConn (ps.map Request.vote) st1).1,
          [selectEvent voteID, updateEvent voteID o1 v1,
            Event.CreatePost p.ChannelId (votedMessage o1)] ::
          (runAll storeConn (ps.map Request.vote) st1).2) := by
      simp only [List.map_cons, runAll, Request.handle, hrun]
    refine ⟨final, ?_, ?_, ?_, ?_⟩
    · rw [hrunAll]
      exact hfin
    · intro k m hk
      have hchosen : chosenBy p = some (Atom.str l) := by
        simp [chosenBy, hparse]
      rw [votesFor_cons, hchosen]
      by_cases hkl : k = Atom.str l
      · subst hkl
        rw [hc] at hk
        have hmn : n = m := Atom.int64.inj (Option.some.inj hk)
        subst hmn
        have := hcount (Atom.str l) (n + 1) (by rw [ho1, mapGet_mapSet]; simp)
        rw [this]
        simp
        ring
      · have hne : ¬ (some (Atom.str l) = some k) := by
          intro e
          exact hkl (Option.some.inj e).symm
        have := hcount k m (by rw [ho1, mapGet_mapSet]; simp [hkl, hk])
        rw [this]
        simp [hne]
    · rw [hsum, ho1, tallySum_mapSet _ _ _ _ hc, hlen]
      simp only [tallyOf]
      push_cast
      ring
    · intro evs hmem
      rw [hrunAll] at hmem
      rcases List.mem_cons.1 hmem with h | h
      · exact ⟨o1, v1, p.ChannelId, h⟩
      · exact hevs evs h

/-! ### The claims -/

/-- C1 (code bug): on the record of the unit test `TestHandleVote`, whose
counts `5` and `3` are Go `int`s, a vote for `Option1` issues one update that
writes `Option1` back as `int64 1` and `Option2` as it was: the assertion
`options[option].(int64)` fails on the `int`, the count read is 0, and the
stored 5 does not grow to 6. -/
theorem test_vote_writes_one_not_six :
    testRecord[4]? =
      some (Value.imap [(Atom.str "Option1", Atom.int 5), (Atom.str "Option2", Atom.int 3)]) ∧
    handleVote testVoteConn testVotePost () =
      ((), [selectEvent "abc123",
            updateEvent "abc123"
              [(Atom.str "Option1", Atom.int64 1), (Atom.str "Option2", Atom.int 3)]
              [(Atom.str "user1", Atom.bool true)],
            Event.CreatePost "test-channel"
              "Ваш голос учтён! Текущие результаты:\n- Option1: 1\n- Option2: 3"]) ∧
    tallyOf (Atom.int64 1) ≠ tallyOf (Atom.int 5) + 1 := by
  decide

/-- C2 (counterexample): voter `A` is a member of `votedUsers` of a poll that
has been ended; the vote is answered with the VoteClosed message, which is not
the AlreadyVoted message. -/
theorem repeat_vote_on_ended_poll_is_answered_closed :
    handleVote storeConn voteRedA [redBluePoll 1 0 false [(Atom.str "A", Atom.bool true)]] =
      ([redBluePoll 1 0 false [(Atom.str "A", Atom.bool true)]],
        [selectEvent "P1", Event.CreatePost "town-square" msgVoteClosed]) ∧
    msgVoteClosed ≠ msgAlreadyVoted := by
  decide

/-- C2 (amended): for every stored poll and every voter who is a key of its
`votedUsers`, `handleVote` with any option label issues no store update (the
run is the `Select` and one post, the state is the one the read left); the
post is the AlreadyVoted message when the poll is active and the VoteClosed
message when it is not. -/
theorem repeat_voter_is_rejected {S : Type} (t : Connection S) (s s1 : S) (post : Post)
    (option voteID : String) (vote : Tuple) (rest : List Tuple) (votedUsers : IMap)
    (mark : Atom) (active : Bool)
    (hparse : reVote post.Message = some (option, voteID))
    (hsel : t.Select s "votes" "primary" 0 1 Iter.IterEq (voteKey voteID) =
      (s1, Except.ok ⟨vote :: rest⟩))
    (hactive : vote[6]? = some (Value.atom (Atom.bool active)))
    (hvoted : vote[7]? = some (Value.imap votedUsers))
    (hmember : mapGet (Atom.str post.UserId) votedUsers = some mark) :
    handleVote t post s =
      (s1, [selectEvent voteID, Event.CreatePost post.ChannelId
        (if active then msgAlreadyVoted else msgVoteClosed)]) := by
  cases active <;>
  simp [handleVote, handleVoteRead, hparse, hsel, checkVote, hactive, hvoted, hmember,
    sendMessage, votedUsersOf]

/-- Witness of C2 (amended): voter `A` votes again on the open scenario poll. -/
theorem repeat_voter_is_rejected_witness :
    handleVote storeConn voteRedA [redBluePoll 1 0 true [(Atom.str "A", Atom.bool true)]] =
      ([redBluePoll 1 0 true [(Atom.str "A", Atom.bool true)]],
        [selectEvent "P1", Event.CreatePost "town-square" msgAlreadyVoted]) :=
  repeat_voter_is_rejected storeConn _ _ voteRedA "Red" "P1"
    (redBluePoll 1 0 true [(Atom.str "A", Atom.bool true)]) [] [(Atom.str "A", Atom.bool true)]
    (Atom.bool true) true (by decide) rfl rfl rfl rfl

/-- C3: for every stored poll whose active flag is false, `handleVote` by any
voter for any option label replies with the VoteClosed message and issues no
store update (the run is the `Select` and that post).  In the sequential store,
where `end_vote` sets the flag to false: when the creator's `handleEndVote` on
a stored poll has succeeded, every later `handleVote` on the same id, in any
number, is answered with the VoteClosed message after its `Select`, and the
store stays as the end left it. -/
theorem closed_poll_rejects_votes {S : Type} (t : Connection S) (s s1 : S) (post : Post)
    (option voteID : String) (vote : Tuple) (rest : List Tuple)
    (st : Store) (pEnd : Post) (votes : List Post) (voteID2 question : String)
    (options : IMap) (stored : Tuple) (flag : Value)
    (hparse : reVote post.Message = some (option, voteID))
    (hsel : t.Select s "votes" "primary" 0 1 Iter.IterEq (voteKey voteID) =
      (s1, Except.ok ⟨vote :: rest⟩))
    (hactive : vote[6]? = some (Value.atom (Atom.bool false)))
    (hEnd : reEnd pEnd.Message = some voteID2)
    (hvotes : ∀ p ∈ votes, (Request.vote p).target = some voteID2)
    (hstored : st.select 0 1 (voteKey voteID2) = [stored])
    (hcreator : stored[2]? = some (Value.atom (Atom.str pEnd.UserId)))
    (hquestion : stored[3]? = some (Value.atom (Atom.str question)))
    (hoptions : stored[4]? = some (Value.imap options))
    (hflag : stored[6]? = some flag) :
    handleVote t post s =
      (s1, [selectEvent voteID, Event.CreatePost post.ChannelId msgVoteClosed]) ∧
    handleEndVote storeConn pEnd st =
      (st.endVote (voteKey voteID2),
        [selectEvent voteID2, Event.Call "end_vote" (voteKey voteID2),
         Event.CreatePost pEnd.ChannelId (endedMessage question options)]) ∧
    runAll storeConn (votes.map Request.vote) (st.endVote (voteKey voteID2)) =
      (st.endVote (voteKey voteID2),
        votes.map (fun p =>
          [selectEvent voteID2, Event.CreatePost p.ChannelId msgVoteClosed])) := by
  refine ⟨?_, ?_, ?_⟩
  · simp [handleVote, handleVoteRead, hparse, hsel, checkVote, hactive, sendMessage]
  · simp [handleEndVote, hEnd, storeConn_select, hstored, hcreator, hquestion, hoptions,
      sendMessage]
    simp [storeConn, voteKey]
  · have hlen : 6 < stored.length := (List.getElem?_eq_some_iff.1 hflag).1
    have h6 : (stored.set 6 (Value.atom (Atom.bool false)))[6]? =
        some (Value.atom (Atom.bool false)) := by
      simp [List.getElem?_set, hlen]
    have hsel2 : (st.endVote (voteKey voteID2)).select 0 1 (voteKey voteID2) =
        [stored.set 6 (Value.atom (Atom.bool false))] := by
      rw [select_endVote, hstored]
      rfl
    exact runAll_votes_closed _ voteID2 _ votes hsel2 h6 hvotes

/-- Witness of C3: a vote on the ended scenario poll, and the creator ending
the open scenario poll before voters `B` and `A` vote. -/
theorem closed_poll_rejects_votes_witness :
    handleVote storeConn voteRedA [redBluePoll 1 0 false []] =
      ([redBluePoll 1 0 false []],
        [selectEvent "P1", Event.CreatePost "town-square" msgVoteClosed]) ∧
    handleEndVote storeConn ⟨"/vote end P1", "town-square", "creator"⟩
        [redBluePoll 1 0 true []] =
      (Store.endVote [redBluePoll 1 0 true []] (voteKey "P1"),
        [selectEvent "P1", Event.Call "end_vote" (voteKey "P1"),
         Event.CreatePost "town-square" (endedMessage "Colour?"
           [(Atom.str "Red", Atom.int64 1), (Atom.str "Blue", Atom.int64 0)])]) ∧
    runAll storeConn ([voteBlueB, voteRedA].map Request.vote)
        (Store.endVote [redBluePoll 1 0 true []] (voteKey "P1")) =
      (Store.endVote [redBluePoll 1 0 true []] (voteKey "P1"),
        [voteBlueB, voteRedA].map (fun p =>
          [selectEvent "P1", Event.CreatePost p.ChannelId msgVoteClosed])) :=
  closed_poll_rejects_votes storeConn [redBluePoll 1 0 false []] _ voteRedA "Red" "P1"
    (redBluePoll 1 0 false []) [] [redBluePoll 1 0 true []]
    ⟨"/vote end P1", "town-square", "creator"⟩ [voteBlueB, voteRedA] "P1" "Colour?"
    [(Atom.str "Red", Atom.int64 1), (Atom.str "Blue", Atom.int64 0)]
    (redBluePoll 1 0 true []) (Value.atom (Atom.bool true))
    (by decide) rfl rfl (by decide) (by decide) rfl rfl rfl rfl rfl

/-- C4: for every stored poll and every requester whose user id differs from
the poll's creator, `handleEndVote` and `handleDeleteVote` reply with the
Unauthorized message; the run is the `Select` that fetched the poll and that
post, so neither `end_vote` nor `delete_vote` nor an update is issued, and the
state of the connection is the one the read left. -/
theorem only_creator_ends_or_deletes {S : Type} (t : Connection S) (s s1 : S)
    (voteID creator : String) (vote : Tuple) (rest : List Tuple) (pEnd pDelete : Post)
    (hEnd : reEnd pEnd.Message = some voteID)
    (hDelete : reDelete pDelete.Message = some voteID)
    (hsel : t.Select s "votes" "primary" 0 1 Iter.IterEq (voteKey voteID) =
      (s1, Except.ok ⟨vote :: rest⟩))
    (hcreator : vote[2]? = some (Value.atom (Atom.str creator)))
    (hneEnd : pEnd.UserId ≠ creator) (hneDelete : pDelete.UserId ≠ creator) :
    handleEndVote t pEnd s =
      (s1, [selectEvent voteID, Event.CreatePost pEnd.ChannelId msgUnauthorized]) ∧
    handleDeleteVote t pDelete s =
      (s1, [selectEvent voteID, Event.CreatePost pDelete.ChannelId msgUnauthorized]) := by
  constructor
  · simp [handleEndVote, hEnd, hsel, hcreator, sendMessage, Ne.symm hneEnd]
  · simp [handleDeleteVote, hDelete, hsel, hcreator, sendMessage, Ne.symm hneDelete]

/-- Witness of C4: the case "not creator" of `TestHandleEndVote`, on a store
that holds the test record; the store is unchanged. -/
theorem only_creator_ends_or_deletes_witness :
    handleEndVote storeConn ⟨"/vote end abc123", "test-channel", "user2"⟩ [testRecord] =
      ([testRecord],
        [selectEvent "abc123", Event.CreatePost "test-channel" msgUnauthorized]) ∧
    handleDeleteVote storeConn ⟨"/vote delete abc123", "test-channel", "user2"⟩ [testRecord] =
      ([testRecord],
        [selectEvent "abc123", Event.CreatePost "test-channel" msgUnauthorized]) :=
  only_creator_ends_or_deletes storeConn [testRecord] _ "abc123" "user1" testRecord []
    ⟨"/vote end abc123", "test-channel", "user2"⟩
    ⟨"/vote delete abc123", "test-channel", "user2"⟩
    (by decide) (by decide) rfl rfl (by decide) (by decide)

/-- C5 (counterexample): voters `A` and `B` vote `Red` and `Blue` on the open
scenario poll with both tallies 0; both calls read before either writes.  Both
calls are answered with the success message, yet the stored tallies end as
`Red: 0, Blue: 1` with only `B` in `votedUsers`: the sum is 1 and not 2, and
`Red` has tally 0 although one voter chose it. -/
theorem interleaved_votes_lose_an_increment :
    interleave storeConn [0, 1, 0, 1]
        ([redBluePoll 0 0 true []], [VoteCall.waiting voteRedA, VoteCall.waiting voteBlueB]) =
      ([redBluePoll 0 1 true [(Atom.str "B", Atom.bool true)]],
        [VoteCall.returned
          [selectEvent "P1",
           updateEvent "P1" [(Atom.str "Red", Atom.int64 1), (Atom.str "Blue", Atom.int64 0)]
             [(Atom.str "A", Atom.bool true)],
           Event.CreatePost "town-square"
             "Ваш голос учтён! Текущие результаты:\n- Red: 1\n- Blue: 0"],
         VoteCall.returned
          [selectEvent "P1",
           updateEvent "P1" [(Atom.str "Red", Atom.int64 0), (Atom.str "Blue", Atom.int64 1)]
             [(Atom.str "B", Atom.bool true)],
           Event.CreatePost "town-square"
             "Ваш голос учтён! Текущие результаты:\n- Red: 0\n- Blue: 1"]]) ∧
    tallySum [(Atom.str "Red", Atom.int64 0), (Atom.str "Blue", Atom.int64 1)] ≠ 2 ∧
    votesFor (Atom.str "Red") [voteRedA, voteBlueB] = 1 := by
  decide

/-- C5 (amended): for every open poll whose tallies are stored as `int64`
counts with room for `N` more, and every `N` distinct voters, none of them in
`votedUsers`, whose `handleVote` calls for options of the poll run one after
another on the sequential store (each write directly after its own read):
every call is answered with the success message, afterwards each option's
tally is its stored tally plus the number of voters who chose it, and the sum
of the tallies has grown by `N`. -/
theorem sequential_votes_are_counted (voteID : String) (ps : List Post) (st : Store)
    (stored : Tuple) (options : IMap) (v7 : Value)
    (hstored : st.select 0 1 (voteKey voteID) = [stored])
    (hactive : stored[6]? = some (Value.atom (Atom.bool true)))
    (hoptions : stored[4]? = some (Value.imap options))
    (hvoted : stored[7]? = some v7)
    (hvalid : ∀ p ∈ ps, validVote voteID options p = true)
    (hdistinct : (ps.map Post.UserId).Nodup)
    (hfresh : ∀ p ∈ ps, mapGet (Atom.str p.UserId) (votedUsersOf v7) = none)
    (hcounts : ∀ e ∈ options, hasRoom ps.length e.2 = true) :
    ∃ final : IMap,
      Store.optionsOf (runAll storeConn (ps.map Request.vote) st).1 voteID = some final ∧
      (∀ k n, mapGet k options = some (Atom.int64 n) →
        mapGet k final = some (Atom.int64 (n + votesFor k ps))) ∧
      tallySum final = tallySum options + ps.length ∧
      (∀ evs ∈ (runAll storeConn (ps.map Request.vote) st).2, ∃ o v ch,
        evs = [selectEvent voteID, updateEvent voteID o v,
          Event.CreatePost ch (votedMessage o)]) :=
  sequential_votes_aux voteID ps st stored options v7 hstored hactive hoptions hvoted hvalid
    hdistinct hfresh hcounts

/-- Witness of C5 (amended): voters `A` and `B` of the counterexample, one
after the other. -/
theorem sequential_votes_are_counted_witness :
    ∃ final : IMap,
      Store.optionsOf
        (runAll storeConn ([voteRedA, voteBlueB].map Request.vote)
          [redBluePoll 0 0 true []]).1 "P1" = some final ∧
      (∀ k n, mapGet k [(Atom.str "Red", Atom.int64 0), (Atom.str "Blue", Atom.int64 0)] =
          some (Atom.int64 n) →
        mapGet k final = some (Atom.int64 (n + votesFor k [voteRedA, voteBlueB]))) ∧
      tallySum final =
        tallySum [(Atom.str "Red", Atom.int64 0), (Atom.str "Blue", Atom.int64 0)] +
          [voteRedA, voteBlueB].length ∧
      (∀ evs ∈ (runAll storeConn ([voteRedA, voteBlueB].map Request.vote)
          [redBluePoll 0 0 true []]).2, ∃ o v ch,
        evs = [selectEvent "P1", updateEvent "P1" o v,
          Event.CreatePost ch (votedMessage o)]) :=
  sequential_votes_are_counted "P1" [voteRedA, voteBlueB] [redBluePoll 0 0 true []]
    (redBluePoll 0 0 true []) [(Atom.str "Red", Atom.int64 0), (Atom.str "Blue", Atom.int64 0)]
    (Value.imap []) rfl rfl rfl rfl (by decide) (by decide) (by decide) (by decide)

/-- C6: for every stored active poll, every voter who is not a key of
`votedUsers` and every option label that is not a key of the poll's options,
`handleVote` replies with the InvalidOption message; the run is the `Select`
and that post, so no update is issued and tallies, labels and `votedUsers`
stay as they are. -/
theorem unknown_option_is_rejected {S : Type} (t : Connection S) (s s1 : S) (post : Post)
    (option voteID : String) (vote : Tuple) (rest : List Tuple) (options : IMap) (v7 : Value)
    (hparse : reVote post.Message = some (option, voteID))
    (hsel : t.Select s "votes" "primary" 0 1 Iter.IterEq (voteKey voteID) =
      (s1, Except.ok ⟨vote :: rest⟩))
    (hactive : vote[6]? = some (Value.atom (Atom.bool true)))
    (hvoted : vote[7]? = some v7)
    (hfresh : mapGet (Atom.str post.UserId) (votedUsersOf v7) = none)
    (hoptions : vote[4]? = some (Value.imap options))
    (hlabel : mapGet (Atom.str option) options = none) :
    handleVote t post s =
      (s1, [selectEvent voteID, Event.CreatePost post.ChannelId msgInvalidOption]) := by
  simp [handleVote, handleVoteRead, hparse, hsel, checkVote, hactive, hvoted, hfresh, hoptions,
    hlabel, sendMessage]

/-- Witness of C6: a vote for `Green` on the scenario poll. -/
theorem unknown_option_is_rejected_witness :
    handleVote storeConn ⟨"/vote \"Green\" P1", "town-square", "A"⟩
        [redBluePoll 0 0 true []] =
      ([redBluePoll 0 0 true []],
        [selectEvent "P1", Event.CreatePost "town-square" msgInvalidOption]) :=
  unknown_option_is_rejected storeConn _ _ ⟨"/vote \"Green\" P1", "town-square", "A"⟩
    "Green" "P1" (redBluePoll 0 0 true []) []
    [(Atom.str "Red", Atom.int64 0), (Atom.str "Blue", Atom.int64 0)] (Value.imap [])
    (by decide) rfl rfl rfl rfl rfl rfl

/-- C7: for each of the four handlers that read a poll, a command that parses
to a vote id for which the read returns an empty result makes the handler
reply with the NotFound message; the run is the `Select` and that one post, so
it issues no insert, no update and no stored-procedure call, and the state of
the connection is the one the read left. -/
theorem missing_poll_is_not_found {S : Type} (t : Connection S) (s s1 : S)
    (voteID option : String) (pInfo pVote pEnd pDelete : Post)
    (hInfo : reInfo pInfo.Message = some voteID)
    (hVote : reVote pVote.Message = some (option, voteID))
    (hEnd : reEnd pEnd.Message = some voteID)
    (hDelete : reDelete pDelete.Message = some voteID)
    (hsel : t.Select s "votes" "primary" 0 1 Iter.IterEq (voteKey voteID) =
      (s1, Except.ok ⟨[]⟩)) :
    handleVoteInfo t pInfo s =
      (s1, [selectEvent voteID, Event.CreatePost pInfo.ChannelId msgNotFound]) ∧
    handleVote t pVote s =
      (s1, [selectEvent voteID, Event.CreatePost pVote.ChannelId msgNotFound]) ∧
    handleEndVote t pEnd s =
      (s1, [selectEvent voteID, Event.CreatePost pEnd.ChannelId msgNotFound]) ∧
    handleDeleteVote t pDelete s =
      (s1, [selectEvent voteID, Event.CreatePost pDelete.ChannelId msgNotFound]) := by
  refine ⟨?_, ?_, ?_, ?_⟩
  · simp [handleVoteInfo, hInfo, hsel, sendMessage]
  · simp [handleVote, handleVoteRead, hVote, hsel, sendMessage]
  · simp [handleEndVote, hEnd, hsel, sendMessage]
  · simp [handleDeleteVote, hDelete, hsel, sendMessage]

/-- Witness of C7 on the empty store with the messages of the unit tests. -/
theorem missing_poll_is_not_found_witness :
    handleVoteInfo storeConn ⟨"/vote info notfound", "test-channel", "user1"⟩ [] =
      ([], [selectEvent "notfound", Event.CreatePost "test-channel" msgNotFound]) ∧
    handleVote storeConn ⟨"/vote \"Option1\" notfound", "test-channel", "user1"⟩ [] =
      ([], [selectEvent "notfound", Event.CreatePost "test-channel" msgNotFound]) ∧
    handleEndVote storeConn ⟨"/vote end notfound", "test-channel", "user1"⟩ [] =
      ([], [selectEvent "notfound", Event.CreatePost "test-channel" msgNotFound]) ∧
    handleDeleteVote storeConn ⟨"/vote delete notfound", "test-channel", "user1"⟩ [] =
      ([], [selectEvent "notfound", Event.CreatePost "test-channel" msgNotFound]) :=
  missing_poll_is_not_found storeConn [] [] "notfound" "Option1" _ _ _ _
    (by decide) (by decide) (by decide) (by decide) rfl

/-- C8: for every message the create pattern matches, with `question` and
`optionsStr` its submatches: the labels the option pattern finds in
`optionsStr` are the labels the command supplies (for a command written as
`/vote create "question" "label1" ... "labeln"` they are `label1 ... labeln`);
`handleCreateVote` issues an `Insert` if and only if at least 2 of them are
distinct; with fewer than 2 the run is the one post
"Нужно минимум 2 варианта ответа" and the state of the connection is
untouched; with at least 2 the run is one `Insert` and one post, and the state
is the one the connection's `Insert` leaves; and every tuple it inserts
carries an options map whose keys are the supplied labels, at least 2 of
them. -/
theorem create_inserts_iff_two_labels {S : Type} (t : Connection S) (s : S) (uuid : String)
    (now : Int) (post : Post) (question optionsStr : String)
    (hparse : reCreate post.Message = some (question, optionsStr)) :
    (∀ (q : String) (labels : List String), q.toList ≠ [] → dq ∉ q.toList → labels ≠ [] →
      (∀ l ∈ labels, l.toList ≠ [] ∧ dq ∉ l.toList ∧ lf ∉ l.toList) →
      post.Message = createCommand q labels →
        question = q ∧ optionRe optionsStr = labels) ∧
    ((∃ space tuple, Event.Insert space tuple ∈ (handleCreateVote t uuid now post s).2) ↔
      2 ≤ (optionRe optionsStr).toFinset.card) ∧
    ((optionRe optionsStr).toFinset.card < 2 →
      handleCreateVote t uuid now post s =
        (s, [Event.CreatePost post.ChannelId "Нужно минимум 2 варианта ответа"])) ∧
    (2 ≤ (optionRe optionsStr).toFinset.card →
      ∃ reply, handleCreateVote t uuid now post s =
        ((t.Insert s "votes" (voteData (newVoteID uuid) post question
            (buildOptions (optionRe optionsStr)) now)).1,
          [Event.Insert "votes" (voteData (newVoteID uuid) post question
            (buildOptions (optionRe optionsStr)) now),
           Event.CreatePost post.ChannelId reply])) ∧
    (∀ space tuple, Event.Insert space tuple ∈ (handleCreateVote t uuid now post s).2 →
      ∃ options, tuple[4]? = some (Value.mapStringAny options) ∧
        (∀ l, l ∈ mapKeys options ↔ l ∈ optionRe optionsStr) ∧
        (mapKeys options).Nodup ∧ 2 ≤ (mapKeys options).length) := by
  have hlen := buildOptions_length (optionRe optionsStr)
  obtain ⟨hkeys, hnd, _⟩ := buildOptions_spec (optionRe optionsStr)
  refine ⟨?_, ?_⟩
  · intro q labels hq hqq hne hl hmsg
    obtain ⟨h1, _⟩ := reCreate_createCommand q labels hq hqq hne hl
    rw [hmsg, h1] at hparse
    simp only [Option.some.injEq, Prod.mk.injEq] at hparse
    refine ⟨hparse.1.symm, ?_⟩
    rw [← hparse.2]
    exact scanOptions_optionsPart labels hl
  by_cases h : (optionRe optionsStr).toFinset.card < 2
  · have hrun : handleCreateVote t uuid now post s =
        (s, [Event.CreatePost post.ChannelId "Нужно минимум 2 варианта ответа"]) := by
      simp [handleCreateVote, hparse, hlen, h, sendMessage, msgTooFewOptions]
    refine ⟨?_, fun _ => hrun, fun h2 => absurd h2 (by omega), ?_⟩
    · rw [hrun]
      simp
      omega
    · rw [hrun]
      simp
  · have h2 : 2 ≤ (optionRe optionsStr).toFinset.card := by omega
    have hrun : ∃ reply, handleCreateVote t uuid now post s =
        ((t.Insert s "votes" (voteData (newVoteID uuid) post question
            (buildOptions (optionRe optionsStr)) now)).1,
          [Event.Insert "votes" (voteData (newVoteID uuid) post question
            (buildOptions (optionRe optionsStr)) now),
           Event.CreatePost post.ChannelId reply]) := by
      unfold handleCreateVote
      simp only [hparse, hlen, h, if_false, sendMessage]
      cases hI : t.Insert s "votes" (voteData (newVoteID uuid) post question
          (buildOptions (optionRe optionsStr)) now) with
      | mk s1 r =>
        cases r with
        | error e => exact ⟨_, rfl⟩
        | ok a => exact ⟨_, rfl⟩
    obtain ⟨reply, hrun⟩ := hrun
    refine ⟨?_, fun h3 => absurd h3 h, fun _ => ⟨reply, hrun⟩, ?_⟩
    · rw [hrun]
      simp [h2]
    · intro space tuple hmem
      rw [hrun] at hmem
      simp at hmem
      refine ⟨buildOptions (optionRe optionsStr), ?_, hkeys, hnd, ?_⟩
      · rw [hmem.2]
        rfl
      · simp only [mapKeys, List.length_map, hlen]
        exact h2

/-- Witness of C8: the message of the unit test "successful vote creation"
supplies the labels `Option1` and `Option2`; on the empty store its record is
inserted and is the store afterwards.  A command that supplies the label `Yes`
twice is answered "Нужно минимум 2 варианта ответа" and leaves the store as it
is.  The last part evaluates the two commands as one run. -/
theorem create_inserts_iff_two_labels_witness :
    (testCreatePost.Message = createCommand "Test question?" ["Option1", "Option2"] ∧
      optionRe "\"Option1\" \"Option2\"" = ["Option1", "Option2"] ∧
      ∃ reply, handleCreateVote storeConn "6ba7b810-9dad-11d1" 1700000000 testCreatePost [] =
        ([testCreated],
          [Event.Insert "votes" testCreated, Event.CreatePost "test-channel" reply])) ∧
    (duplicateLabelsPost.Message = createCommand "Tea?" ["Yes", "Yes"] ∧
      optionRe "\"Yes\" \"Yes\"" = ["Yes", "Yes"] ∧
      handleCreateVote storeConn "0e1f-22bb" 1700000001 duplicateLabelsPost [testCreated] =
        ([testCreated],
          [Event.CreatePost "test-channel" "Нужно минимум 2 варианта ответа"])) ∧
    runAll storeConn
        [Request.createVote "6ba7b810-9dad-11d1" 1700000000 testCreatePost,
         Request.createVote "0e1f-22bb" 1700000001 duplicateLabelsPost] [] =
      ([testCreated],
        [[Event.Insert "votes" testCreated,
          Event.CreatePost "test-channel" "### Test question?\n**Варианты:**\n- `Option1`\n- `Option2`\n\nПроголосовать: `/vote \"ваш выбор\" 6ba7b8109dad11d1`\n\nID голосования: `6ba7b8109dad11d1`"],
         [Event.CreatePost "test-channel" "Нужно минимум 2 варианта ответа"]]) :=
  ⟨⟨by decide, by decide,
    (create_inserts_iff_two_labels storeConn [] "6ba7b810-9dad-11d1" 1700000000 testCreatePost
      "Test question?" "\"Option1\" \"Option2\"" (by decide)).2.2.2.1 (by decide)⟩,
   ⟨by decide, by decide,
    (create_inserts_iff_two_labels storeConn [testCreated] "0e1f-22bb" 1700000001
      duplicateLabelsPost "Tea?" "\"Yes\" \"Yes\"" (by decide)).2.2.1 (by decide)⟩,
   by decide⟩

/-- C9: for every accepted create command (the create pattern matches with
the question as first submatch and at least 2 distinct quoted labels in the
second), `handleCreateVote` issues exactly one `Insert` and leaves the
connection in the state that `Insert` gives; the tuple has the post's channel
id as channel, the posting user's id as creator, the question, an options map
whose keys are exactly the labels, without repetition, every tally the Go
`int` 0, the creation time, `active` true and an empty `votedUsers`.  On the
sequential store, when the id is not taken, the store afterwards is the store
before with this record added, and the record is read back under its id.  For
a command written as `/vote create "question" "label1" ... "labeln"` the
question and the labels are the ones written. -/
theorem created_record_fields {S : Type} (t : Connection S) (s : S) (uuid : String)
    (now : Int) (post : Post) (question optionsStr : String)
    (hparse : reCreate post.Message = some (question, optionsStr))
    (haccepted : 2 ≤ (optionRe optionsStr).toFinset.card) :
    (∃ reply, handleCreateVote t uuid now post s =
      ((t.Insert s "votes"
          [Value.atom (Atom.str (newVoteID uuid)), Value.atom (Atom.str post.ChannelId),
           Value.atom (Atom.str post.UserId), Value.atom (Atom.str question),
           Value.mapStringAny (buildOptions (optionRe optionsStr)), Value.atom (Atom.int64 now),
           Value.atom (Atom.bool true), Value.mapStringBool []]).1,
        [Event.Insert "votes"
          [Value.atom (Atom.str (newVoteID uuid)), Value.atom (Atom.str post.ChannelId),
           Value.atom (Atom.str post.UserId), Value.atom (Atom.str question),
           Value.mapStringAny (buildOptions (optionRe optionsStr)), Value.atom (Atom.int64 now),
           Value.atom (Atom.bool true), Value.mapStringBool []],
         Event.CreatePost post.ChannelId reply])) ∧
    (∀ st : Store, st.any (hasKey (voteKey (newVoteID uuid))) = false →
      (handleCreateVote storeConn uuid now post st).1 = st ++
        [[Value.atom (Atom.str (newVoteID uuid)), Value.atom (Atom.str post.ChannelId),
          Value.atom (Atom.str post.UserId), Value.atom (Atom.str question),
          Value.mapStringAny (buildOptions (optionRe optionsStr)), Value.atom (Atom.int64 now),
          Value.atom (Atom.bool true), Value.mapStringBool []]] ∧
      (handleCreateVote storeConn uuid now post st).1.select 0 1 (voteKey (newVoteID uuid)) =
        [[Value.atom (Atom.str (newVoteID uuid)), Value.atom (Atom.str post.ChannelId),
          Value.atom (Atom.str post.UserId), Value.atom (Atom.str question),
          Value.mapStringAny (buildOptions (optionRe optionsStr)), Value.atom (Atom.int64 now),
          Value.atom (Atom.bool true), Value.mapStringBool []]]) ∧
    (∀ l, l ∈ mapKeys (buildOptions (optionRe optionsStr)) ↔ l ∈ optionRe optionsStr) ∧
    (mapKeys (buildOptions (optionRe optionsStr))).Nodup ∧
    (∀ e ∈ buildOptions (optionRe optionsStr), e.2 = Atom.int 0) ∧
    (∀ (q : String) (labels : List String), q.toList ≠ [] → dq ∉ q.toList → labels ≠ [] →
      (∀ l ∈ labels, l.toList ≠ [] ∧ dq ∉ l.toList ∧ lf ∉ l.toList) →
      post.Message = createCommand q labels →
        question = q ∧ optionRe optionsStr = labels) := by
  obtain ⟨h1, h2, h3⟩ := buildOptions_spec (optionRe optionsStr)
  have hlen := buildOptions_length (optionRe optionsStr)
  have hnot : ¬ (optionRe optionsStr).toFinset.card < 2 := by omega
  have hrun : ∀ {S2 : Type} (t2 : Connection S2) (s2 : S2), ∃ reply,
      handleCreateVote t2 uuid now post s2 =
        ((t2.Insert s2 "votes"
            [Value.atom (Atom.str (newVoteID uuid)), Value.atom (Atom.str post.ChannelId),
             Value.atom (Atom.str post.UserId), Value.atom (Atom.str question),
             Value.mapStringAny (buildOptions (optionRe optionsStr)),
             Value.atom (Atom.int64 now), Value.atom (Atom.bool true),
             Value.mapStringBool []]).1,
          [Event.Insert "votes"
            [Value.atom (Atom.str (newVoteID uuid)), Value.atom (Atom.str post.ChannelId),
             Value.atom (Atom.str post.UserId), Value.atom (Atom.str question),
             Value.mapStringAny (buildOptions (optionRe optionsStr)),
             Value.atom (Atom.int64 now), Value.atom (Atom.bool true),
             Value.mapStringBool []],
           Event.CreatePost post.ChannelId reply]) := by
    intro S2 t2 s2
    unfold handleCreateVote
    simp only [hparse, hlen, hnot, if_false, sendMessage, voteData]
    cases hI : t2.Insert s2 "votes"
        [Value.atom (Atom.str (newVoteID uuid)), Value.atom (Atom.str post.ChannelId),
         Value.atom (Atom.str post.UserId), Value.atom (Atom.str question),
         Value.mapStringAny (buildOptions (optionRe optionsStr)),
         Value.atom (Atom.int64 now), Value.atom (Atom.bool true),
         Value.mapStringBool []] with
    | mk s1 r =>
      cases r with
      | error e => exact ⟨_, rfl⟩
      | ok a => exact ⟨_, rfl⟩
  refine ⟨hrun t s, ?_, h1, h2, h3, ?_⟩
  · intro st hfresh
    obtain ⟨reply, hst⟩ := hrun storeConn st
    have hins := storeConn_insert_fresh st (newVoteID uuid)
      [Value.atom (Atom.str post.ChannelId),
       Value.atom (Atom.str post.UserId), Value.atom (Atom.str question),
       Value.mapStringAny (buildOptions (optionRe optionsStr)),
       Value.atom (Atom.int64 now), Value.atom (Atom.bool true),
       Value.mapStringBool []] hfresh
    have hsel := select_inserted st (newVoteID uuid)
      [Value.atom (Atom.str post.ChannelId),
       Value.atom (Atom.str post.UserId), Value.atom (Atom.str question),
       Value.mapStringAny (buildOptions (optionRe optionsStr)),
       Value.atom (Atom.int64 now), Value.atom (Atom.bool true),
       Value.mapStringBool []] hfresh
    rw [hst, hins]
    exact ⟨rfl, hsel⟩
  · intro q labels hq hqq hne hl hmsg
    obtain ⟨e1, _⟩ := reCreate_createCommand q labels hq hqq hne hl
    rw [hmsg, e1] at hparse
    simp only [Option.some.injEq, Prod.mk.injEq] at hparse
    refine ⟨hparse.1.symm, ?_⟩
    rw [← hparse.2]
    exact scanOptions_optionsPart labels hl

/-- Witness of C9: the message of the unit test "successful vote creation" on
the empty store: the record with the labels `Option1` and `Option2` at 0 is
inserted, is the store afterwards and is read back under its id.  The last
part evaluates the run and a read of the new record by `handleVoteInfo`. -/
theorem created_record_fields_witness :
    testCreatePost.Message = createCommand "Test question?" ["Option1", "Option2"] ∧
    (∃ reply, handleCreateVote storeConn "6ba7b810-9dad-11d1" 1700000000 testCreatePost [] =
      ([testCreated],
        [Event.Insert "votes" testCreated, Event.CreatePost "test-channel" reply])) ∧
    ((handleCreateVote storeConn "6ba7b810-9dad-11d1" 1700000000 testCreatePost []).1 =
      [testCreated] ∧
     (handleCreateVote storeConn "6ba7b810-9dad-11d1" 1700000000 testCreatePost []).1.select 0 1
      (voteKey "6ba7b8109dad11d1") = [testCreated]) ∧
    runAll (wireConn Atom.int64)
        [Request.createVote "6ba7b810-9dad-11d1" 1700000000 testCreatePost,
         Request.voteInfo ⟨"/vote info 6ba7b8109dad11d1", "test-channel", "user2"⟩] [] =
      ([testCreated],
        [[Event.Insert "votes" testCreated,
          Event.CreatePost "test-channel" "### Test question?\n**Варианты:**\n- `Option1`\n- `Option2`\n\nПроголосовать: `/vote \"ваш выбор\" 6ba7b8109dad11d1`\n\nID голосования: `6ba7b8109dad11d1`"],
         [selectEvent "6ba7b8109dad11d1",
          Event.CreatePost "test-channel"
            "##### Текущие результаты голосования: Test question?\n\n- Option1: 0\n- Option2: 0"]]) :=
  ⟨by decide,
   (created_record_fields storeConn [] "6ba7b810-9dad-11d1" 1700000000 testCreatePost
      "Test question?" "\"Option1\" \"Option2\"" (by decide) (by decide)).1,
   (created_record_fields storeConn [] "6ba7b810-9dad-11d1" 1700000000 testCreatePost
      "Test question?" "\"Option1\" \"Option2\"" (by decide) (by decide)).2.1 [] rfl,
   by decide⟩

/-- C10: in the sequential store, where `delete_vote` removes the record keyed
by the id: when the creator's `handleDeleteVote` on a stored poll has
succeeded, every later run of `handleVoteInfo`, `handleVote`, `handleEndVote`
and `handleDeleteVote` on that id, in any number and order, replies with the
NotFound message after its `Select`, and the store stays as the deletion left
it. -/
theorem deleted_poll_stays_not_found (st : Store) (pDelete : Post) (voteID : String)
    (stored : Tuple) (later : List Request)
    (hDelete : reDelete pDelete.Message = some voteID)
    (hstored : st.select 0 1 (voteKey voteID) = [stored])
    (hcreator : stored[2]? = some (Value.atom (Atom.str pDelete.UserId)))
    (hlater : ∀ r ∈ later, r.target = some voteID) :
    handleDeleteVote storeConn pDelete st =
      (st.deleteVote (voteKey voteID),
        [selectEvent voteID,
         Event.Call "delete_vote"
           [Value.atom (Atom.str voteID), Value.atom (Atom.str pDelete.UserId)],
         Event.CreatePost pDelete.ChannelId msgDeleted]) ∧
    (st.deleteVote (voteKey voteID)).select 0 1 (voteKey voteID) = [] ∧
    runAll storeConn later (st.deleteVote (voteKey voteID)) =
      (st.deleteVote (voteKey voteID),
        later.map (fun r =>
          [selectEvent voteID, Event.CreatePost r.post.ChannelId msgNotFound])) := by
  refine ⟨?_, select_deleteVote st _, ?_⟩
  · simp [handleDeleteVote, hDelete, storeConn_select, hstored, hcreator, sendMessage]
    simp [storeConn, voteKey]
  · exact runAll_of_absent _ voteID later (select_deleteVote st _) hlater

/-- Witness of C10: the creator deletes the scenario poll; then info, vote,
end and delete are tried on it. -/
theorem deleted_poll_stays_not_found_witness :
    handleDeleteVote storeConn ⟨"/vote delete P1", "town-square", "creator"⟩
        [redBluePoll 1 1 true []] =
      (Store.deleteVote [redBluePoll 1 1 true []] (voteKey "P1"),
        [selectEvent "P1",
         Event.Call "delete_vote" [Value.atom (Atom.str "P1"), Value.atom (Atom.str "creator")],
         Event.CreatePost "town-square" msgDeleted]) ∧
    (Store.deleteVote [redBluePoll 1 1 true []] (voteKey "P1")).select 0 1 (voteKey "P1") =
      [] ∧
    runAll storeConn laterRequests (Store.deleteVote [redBluePoll 1 1 true []] (voteKey "P1")) =
      (Store.deleteVote [redBluePoll 1 1 true []] (voteKey "P1"),
        laterRequests.map (fun r =>
          [selectEvent "P1", Event.CreatePost r.post.ChannelId msgNotFound])) :=
  deleted_poll_stays_not_found [redBluePoll 1 1 true []]
    ⟨"/vote delete P1", "town-square", "creator"⟩ "P1" (redBluePoll 1 1 true []) laterRequests
    (by decide) rfl rfl (by decide)

/-! ### Ending twice, failed writes, written fields -/

theorem endVote_endVote (st : Store) (voteID : String) :
    (st.endVote (voteKey voteID)).endVote (voteKey voteID) = st.endVote (voteKey voteID) := by
  induction st with
  | nil => rfl
  | cons t st ih =>
    simp only [Store.endVote] at ih ⊢
    by_cases h : hasKey (voteKey voteID) t
    · have h2 := hasKey_voteKey_set voteID t 5 (Value.atom (Atom.bool false))
      rw [h] at h2
      simp [h, h2, ih]
    · simp [h, ih]

theorem rangeConn_select (intType : Int → Atom) (ord : IMap → IMap) (st : Store) (it : Iter)
    (key : Tuple) :
    (rangeConn intType ord).Select st "votes" "primary" 0 1 it key =
      (st, Except.ok ⟨(st.select 0 1 key).map
        (fun t => t.map (fun v => orderValue ord (readValue intType v)))⟩) := by
  simp [rangeConn, wireConn, storeConn]

theorem ne_of_head_ne (a b : String) (h : a.data.head? ≠ b.data.head?) : a ≠ b := by
  intro e
  exact h (by rw [e])

theorem failure_ne_created (e question voteID : String) (options : GoMap String Atom) :
    "Ошибка при создании голосования: " ++ e ≠ createdMessage question options voteID := by
  apply ne_of_head_ne
  simp [createdMessage, String.data_append]

theorem failure_ne_voted (e : String) (options : IMap) :
    "Ошибка при голосовании: " ++ e ≠ votedMessage options := by
  apply ne_of_head_ne
  simp [votedMessage, String.data_append]

theorem failure_ne_ended (e question : String) (options : IMap) :
    "Ошибка при завершении голосования: " ++ e ≠ endedMessage question options := by
  apply ne_of_head_ne
  simp [endedMessage, String.data_append]

theorem failure_ne_deleted (e : String) : "Ошибка при удалении: " ++ e ≠ msgDeleted := by
  apply ne_of_head_ne
  simp [msgDeleted, String.data_append]

theorem mapKeys_mapSet_of_mem {κ β : Type} [DecidableEq κ] (k : κ) (v v0 : β) (m : GoMap κ β)
    (h : mapGet k m = some v0) : mapKeys (mapSet k v m) = mapKeys m := by
  induction m with
  | nil => simp [mapGet] at h
  | cons e m ih =>
    obtain ⟨k1, v1⟩ := e
    by_cases h1 : k1 = k
    · simp [mapSet, mapKeys, h1]
    · simp only [mapGet, h1, if_false] at h
      have := ih h
      simp only [mapKeys] at this
      simp [mapSet, mapKeys, h1, this]

/-! ### The claims, continued -/

/-- C11: `handleEndVote` never looks at `active`: on any connection, when the
read returns the poll, the requester is its creator and the `end_vote` call
answers without an error, the reply is the results built from the tuple read.
In the sequential store, where `end_vote` sets `active` to false, whatever
Go type a read gives the counts and whatever order the two runs range over
the options in: for every stored poll, two consecutive `handleEndVote` calls
by its creator both end with the results reply (the second is no error); the
lines of the two replies are the same tallies, one line per stored option,
possibly in another order; the poll's `active` field is false and its options
are untouched after the first call; and the store after the second call is
the store after the first. -/
theorem ending_twice_is_ending_once (st : Store) (pEnd1 pEnd2 : Post)
    (voteID question : String) (options : IMap) (stored : Tuple) (flag : Value)
    (intType : Int → Atom) (ord1 ord2 : IMap → IMap)
    (hord1 : ∀ m, (ord1 m).Perm m) (hord2 : ∀ m, (ord2 m).Perm m)
    (hEnd1 : reEnd pEnd1.Message = some voteID)
    (hEnd2 : reEnd pEnd2.Message = some voteID)
    (hstored : st.select 0 1 (voteKey voteID) = [stored])
    (hcreator1 : stored[2]? = some (Value.atom (Atom.str pEnd1.UserId)))
    (hcreator2 : stored[2]? = some (Value.atom (Atom.str pEnd2.UserId)))
    (hquestion : stored[3]? = some (Value.atom (Atom.str question)))
    (hoptions : (stored[4]?).map (readValue intType) = some (Value.imap options))
    (hflag : stored[6]? = some flag) :
    (∀ (S : Type) (t : Connection S) (s s1 s2 : S) (post : Post) (vote : Tuple)
        (rest : List Tuple) (q : String) (o : IMap) (r : Response),
      reEnd post.Message = some voteID →
      t.Select s "votes" "primary" 0 1 Iter.IterEq (voteKey voteID) =
        (s1, Except.ok ⟨vote :: rest⟩) →
      vote[2]? = some (Value.atom (Atom.str post.UserId)) →
      vote[3]? = some (Value.atom (Atom.str q)) →
      vote[4]? = some (Value.imap o) →
      t.Call s1 "end_vote" (voteKey voteID) = (s2, Except.ok r) →
      handleEndVote t post s =
        (s2, [selectEvent voteID, Event.Call "end_vote" (voteKey voteID),
          Event.CreatePost post.ChannelId
            ("### Итоги голосования: " ++ q ++ "\n**Результаты:**" ++
              String.join (o.map (fun e => "\n- " ++ fmtS e.1 ++ ": " ++ fmtD e.2)))])) ∧
    handleEndVote (rangeConn intType ord1) pEnd1 st =
      (st.endVote (voteKey voteID),
        [selectEvent voteID, Event.Call "end_vote" (voteKey voteID),
         Event.CreatePost pEnd1.ChannelId
           ("### Итоги голосования: " ++ question ++ "\n**Результаты:**" ++
             String.join ((ord1 options).map
               (fun e => "\n- " ++ fmtS e.1 ++ ": " ++ fmtD e.2)))]) ∧
    handleEndVote (rangeConn intType ord2) pEnd2 (st.endVote (voteKey voteID)) =
      (st.endVote (voteKey voteID),
        [selectEvent voteID, Event.Call "end_vote" (voteKey voteID),
         Event.CreatePost pEnd2.ChannelId
           ("### Итоги голосования: " ++ question ++ "\n**Результаты:**" ++
             String.join ((ord2 options).map
               (fun e => "\n- " ++ fmtS e.1 ++ ": " ++ fmtD e.2)))]) ∧
    ((ord1 options).map (fun e => "\n- " ++ fmtS e.1 ++ ": " ++ fmtD e.2)).Perm
      ((ord2 options).map (fun e => "\n- " ++ fmtS e.1 ++ ": " ++ fmtD e.2)) ∧
    (ord1 options).Perm options ∧
    (st.endVote (voteKey voteID)).select 0 1 (voteKey voteID) =
      [stored.set 6 (Value.atom (Atom.bool false))] ∧
    (stored.set 6 (Value.atom (Atom.bool false)))[6]? =
      some (Value.atom (Atom.bool false)) ∧
    (stored.set 6 (Value.atom (Atom.bool false)))[4]? = stored[4]? := by
  have hlen : 6 < stored.length := (List.getElem?_eq_some_iff.1 hflag).1
  have hsel2 : (st.endVote (voteKey voteID)).select 0 1 (voteKey voteID) =
      [stored.set 6 (Value.atom (Atom.bool false))] := by
    rw [select_endVote, hstored]
    rfl
  have h6 : (stored.set 6 (Value.atom (Atom.bool false)))[6]? =
      some (Value.atom (Atom.bool false)) := by
    simp [List.getElem?_set, hlen]
  have c4 : (stored.set 6 (Value.atom (Atom.bool false)))[4]? = stored[4]? := by
    simp [List.getElem?_set]
  have hread : ∀ o : Option Value, o.map (readValue intType) = some (Value.imap options) →
      ∀ ord : IMap → IMap, o.map (fun v => orderValue ord (readValue intType v)) =
        some (Value.imap (ord options)) := by
    intro o ho ord
    cases o with
    | none => simp at ho
    | some v =>
      simp only [Option.map_some', Option.some.injEq] at ho ⊢
      rw [ho]
      rfl
  have hgen : ∀ (S : Type) (t : Connection S) (s s1 s2 : S) (post : Post) (vote : Tuple)
      (rest : List Tuple) (q : String) (o : IMap) (r : Response),
      reEnd post.Message = some voteID →
      t.Select s "votes" "primary" 0 1 Iter.IterEq (voteKey voteID) =
        (s1, Except.ok ⟨vote :: rest⟩) →
      vote[2]? = some (Value.atom (Atom.str post.UserId)) →
      vote[3]? = some (Value.atom (Atom.str q)) →
      vote[4]? = some (Value.imap o) →
      t.Call s1 "end_vote" (voteKey voteID) = (s2, Except.ok r) →
      handleEndVote t post s =
        (s2, [selectEvent voteID, Event.Call "end_vote" (voteKey voteID),
          Event.CreatePost post.ChannelId
            ("### Итоги голосования: " ++ q ++ "\n**Результаты:**" ++
              String.join (o.map (fun e => "\n- " ++ fmtS e.1 ++ ": " ++ fmtD e.2)))]) := by
    intro S t s s1 s2 post vote rest q o r hparse hsel hcreator hq ho hcall
    simp [handleEndVote, hparse, hsel, hcreator, hq, ho, hcall, sendMessage, endedMessage,
      resultText]
  have hcall1 : (rangeConn intType ord1).Call st "end_vote" (voteKey voteID) =
      (st.endVote (voteKey voteID), Except.ok ⟨[]⟩) := by
    simp [rangeConn, storeConn, voteKey]
  have hcall2 : (rangeConn intType ord2).Call (st.endVote (voteKey voteID)) "end_vote"
      (voteKey voteID) = (st.endVote (voteKey voteID), Except.ok ⟨[]⟩) := by
    have hidem := endVote_endVote st voteID
    simp only [rangeConn, storeConn, voteKey] at hidem ⊢
    simp [hidem]
  refine ⟨hgen, ?_, ?_, ((hord1 options).trans (hord2 options).symm).map _, hord1 options,
    hsel2, h6, c4⟩
  · refine hgen Store (rangeConn intType ord1) st st _ pEnd1
      (stored.map (fun v => orderValue ord1 (readValue intType v))) [] question (ord1 options)
      ⟨[]⟩ hEnd1 ?_ ?_ ?_ ?_ hcall1
    · rw [rangeConn_select, hstored]
      rfl
    · rw [List.getElem?_map, hcreator1]
      rfl
    · rw [List.getElem?_map, hquestion]
      rfl
    · rw [List.getElem?_map]
      exact hread _ hoptions ord1
  · refine hgen Store (rangeConn intType ord2) (st.endVote (voteKey voteID))
      (st.endVote (voteKey voteID)) _ pEnd2
      ((stored.set 6 (Value.atom (Atom.bool false))).map
        (fun v => orderValue ord2 (readValue intType v))) [] question
      (ord2 options) ⟨[]⟩ hEnd2 ?_ ?_ ?_ ?_ hcall2
    · rw [rangeConn_select, hsel2]
      rfl
    · have c2 : (stored.set 6 (Value.atom (Atom.bool false)))[2]? = stored[2]? := by
        simp [List.getElem?_set]
      rw [List.getElem?_map, c2, hcreator2]
      rfl
    · have c3 : (stored.set 6 (Value.atom (Atom.bool false)))[3]? = stored[3]? := by
        simp [List.getElem?_set]
      rw [List.getElem?_map, c3, hquestion]
      rfl
    · rw [List.getElem?_map, c4]
      exact hread _ hoptions ord2

/-- Witness of C11: the scenario poll stands at `Red: 2` and `Blue: 1` with
three voters and is open; its creator ends it twice.  Reads return counts as
`int64`; the first run ranges over the options as stored, the second in the
reverse order.  Both runs reply with the results, the same two tallies in the
two orders, and both leave the poll ended with its tallies as they were.  The
last part evaluates the two calls as one run, both ranging in the reverse
order. -/
theorem ending_twice_is_ending_once_witness :
    handleEndVote (rangeConn Atom.int64 id) ⟨"/vote end P1", "town-square", "creator"⟩
        [redBluePoll 2 1 true threeVoters] =
      ([redBluePoll 2 1 false threeVoters],
        [selectEvent "P1", Event.Call "end_vote" (voteKey "P1"),
         Event.CreatePost "town-square"
           "### Итоги голосования: Colour?\n**Результаты:**\n- Red: 2\n- Blue: 1"]) ∧
    handleEndVote (rangeConn Atom.int64 List.reverse)
        ⟨"/vote end P1", "town-square", "creator"⟩ [redBluePoll 2 1 false threeVoters] =
      ([redBluePoll 2 1 false threeVoters],
        [selectEvent "P1", Event.Call "end_vote" (voteKey "P1"),
         Event.CreatePost "town-square"
           "### Итоги голосования: Colour?\n**Результаты:**\n- Blue: 1\n- Red: 2"]) ∧
    runAll (rangeConn Atom.int64 List.reverse)
        [Request.endVote ⟨"/vote end P1", "town-square", "creator"⟩,
         Request.endVote ⟨"/vote end P1", "town-square", "creator"⟩]
        [redBluePoll 2 1 true threeVoters] =
      ([redBluePoll 2 1 false threeVoters],
        [[selectEvent "P1", Event.Call "end_vote" (voteKey "P1"),
          Event.CreatePost "town-square"
            "### Итоги голосования: Colour?\n**Результаты:**\n- Blue: 1\n- Red: 2"],
         [selectEvent "P1", Event.Call "end_vote" (voteKey "P1"),
          Event.CreatePost "town-square"
            "### Итоги голосования: Colour?\n**Результаты:**\n- Blue: 1\n- Red: 2"]]) :=
  have h := ending_twice_is_ending_once [redBluePoll 2 1 true threeVoters]
    ⟨"/vote end P1", "town-square", "creator"⟩ ⟨"/vote end P1", "town-square", "creator"⟩
    "P1" "Colour?" [(Atom.str "Red", Atom.int64 2), (Atom.str "Blue", Atom.int64 1)]
    (redBluePoll 2 1 true threeVoters) (Value.atom (Atom.bool true)) Atom.int64 id List.reverse
    (fun m => List.Perm.refl m) (fun m => List.reverse_perm m)
    (by decide) (by decide) rfl rfl rfl rfl rfl rfl
  ⟨h.2.1, h.2.2.1, by decide⟩

/-- C12: each of the four writes on its own, on any connection: when the
`Insert` of `handleCreateVote`, the `Update` of `handleVote`, the `end_vote`
call of `handleEndVote` or the `delete_vote` call of `handleDeleteVote` fails
with the error text `e`, the run ends with exactly one post, the handler's
failure text followed by `e`, and this post is none of the handler's success
messages; for the deletion it is "Ошибка при удалении: " followed by `e`. -/
theorem failed_write_is_reported :
    (∀ (S : Type) (t : Connection S) (s s1 : S) (uuid : String) (now : Int) (post : Post)
        (question optionsStr e : String),
      reCreate post.Message = some (question, optionsStr) →
      2 ≤ (optionRe optionsStr).toFinset.card →
      t.Insert s "votes" (voteData (newVoteID uuid) post question
        (buildOptions (optionRe optionsStr)) now) = (s1, Except.error e) →
      handleCreateVote t uuid now post s =
        (s1, [Event.Insert "votes" (voteData (newVoteID uuid) post question
            (buildOptions (optionRe optionsStr)) now),
          Event.CreatePost post.ChannelId ("Ошибка при создании голосования: " ++ e)]) ∧
      ∀ q o i, "Ошибка при создании голосования: " ++ e ≠ createdMessage q o i) ∧
    (∀ (S : Type) (t : Connection S) (s s1 s2 : S) (post : Post) (option voteID : String)
        (vote : Tuple) (rest : List Tuple) (options votedUsers : IMap) (e : String),
      reVote post.Message = some (option, voteID) →
      t.Select s "votes" "primary" 0 1 Iter.IterEq (voteKey voteID) =
        (s1, Except.ok ⟨vote :: rest⟩) →
      checkVote post.UserId option vote = VoteCheck.write options votedUsers →
      t.Update s1 "votes" "primary" (voteKey voteID) (updateOps options votedUsers) =
        (s2, Except.error e) →
      handleVote t post s =
        (s2, [selectEvent voteID, updateEvent voteID options votedUsers,
          Event.CreatePost post.ChannelId ("Ошибка при голосовании: " ++ e)]) ∧
      ∀ o, "Ошибка при голосовании: " ++ e ≠ votedMessage o) ∧
    (∀ (S : Type) (t : Connection S) (s s1 s2 : S) (post : Post) (voteID : String)
        (vote : Tuple) (rest : List Tuple) (e : String),
      reEnd post.Message = some voteID →
      t.Select s "votes" "primary" 0 1 Iter.IterEq (voteKey voteID) =
        (s1, Except.ok ⟨vote :: rest⟩) →
      vote[2]? = some (Value.atom (Atom.str post.UserId)) →
      t.Call s1 "end_vote" (voteKey voteID) = (s2, Except.error e) →
      handleEndVote t post s =
        (s2, [selectEvent voteID, Event.Call "end_vote" (voteKey voteID),
          Event.CreatePost post.ChannelId ("Ошибка при завершении голосования: " ++ e)]) ∧
      ∀ q o, "Ошибка при завершении голосования: " ++ e ≠ endedMessage q o) ∧
    (∀ (S : Type) (t : Connection S) (s s1 s2 : S) (post : Post) (voteID : String)
        (vote : Tuple) (rest : List Tuple) (e : String),
      reDelete post.Message = some voteID →
      t.Select s "votes" "primary" 0 1 Iter.IterEq (voteKey voteID) =
        (s1, Except.ok ⟨vote :: rest⟩) →
      vote[2]? = some (Value.atom (Atom.str post.UserId)) →
      t.Call s1 "delete_vote"
        [Value.atom (Atom.str voteID), Value.atom (Atom.str post.UserId)] =
        (s2, Except.error e) →
      handleDeleteVote t post s =
        (s2, [selectEvent voteID,
          Event.Call "delete_vote"
            [Value.atom (Atom.str voteID), Value.atom (Atom.str post.UserId)],
          Event.CreatePost post.ChannelId ("Ошибка при удалении: " ++ e)]) ∧
      "Ошибка при удалении: " ++ e ≠ msgDeleted) := by
  refine ⟨?_, ?_, ?_, ?_⟩
  · intro S t s s1 uuid now post question optionsStr e hparse haccepted hInsert
    refine ⟨?_, fun q o i => failure_ne_created e q i o⟩
    have hlen := buildOptions_length (optionRe optionsStr)
    have h : ¬ (optionRe optionsStr).toFinset.card < 2 := by omega
    unfold handleCreateVote
    simp only [hparse, hlen, h, if_false, hInsert, sendMessage]
  · intro S t s s1 s2 post option voteID vote rest options votedUsers e hparse hsel hcheck
      hUpdate
    refine ⟨?_, failure_ne_voted e⟩
    simp [handleVote, handleVoteRead, handleVoteWrite, hparse, hsel, hcheck, hUpdate,
      sendMessage]
  · intro S t s s1 s2 post voteID vote rest e hparse hsel hcreator hCall
    refine ⟨?_, fun q o => failure_ne_ended e q o⟩
    simp [handleEndVote, hparse, hsel, hcreator, hCall, sendMessage]
  · intro S t s s1 s2 post voteID vote rest e hparse hsel hcreator hCall
    refine ⟨?_, failure_ne_deleted e⟩
    simp [handleDeleteVote, hparse, hsel, hcreator, hCall, sendMessage]

/-- Witness of C12: on the sequential store that already holds the record of
the unit test's create command, the same id is refused as a duplicate key and
the refusal is reported; against a mock that finds the test record and fails
every write with "tarantool error", the vote, the end and the deletion report
that error.  The last two parts evaluate the same calls as runs: the create
command twice with one id from the empty store, and the three other calls
against the mock. -/
theorem failed_write_is_reported_witness :
    handleCreateVote storeConn "6ba7b810-9dad-11d1" 1700000001 testCreatePost [testCreated] =
      ([testCreated],
        [Event.Insert "votes"
          [Value.atom (Atom.str "6ba7b8109dad11d1"), Value.atom (Atom.str "test-channel"),
           Value.atom (Atom.str "user1"), Value.atom (Atom.str "Test question?"),
           Value.mapStringAny [("Option1", Atom.int 0), ("Option2", Atom.int 0)],
           Value.atom (Atom.int64 1700000001), Value.atom (Atom.bool true),
           Value.mapStringBool []],
         Event.CreatePost "test-channel"
           "Ошибка при создании голосования: Duplicate key exists"]) ∧
    handleVote testFailConn testVotePost () =
      ((), [selectEvent "abc123",
        updateEvent "abc123"
          [(Atom.str "Option1", Atom.int64 1), (Atom.str "Option2", Atom.int 3)]
          [(Atom.str "user1", Atom.bool true)],
        Event.CreatePost "test-channel" "Ошибка при голосовании: tarantool error"]) ∧
    handleEndVote testFailConn testEndPost () =
      ((), [selectEvent "abc123", Event.Call "end_vote" (voteKey "abc123"),
        Event.CreatePost "test-channel"
          "Ошибка при завершении голосования: tarantool error"]) ∧
    handleDeleteVote testFailConn testDeletePost () =
      ((), [selectEvent "abc123",
        Event.Call "delete_vote"
          [Value.atom (Atom.str "abc123"), Value.atom (Atom.str "user1")],
        Event.CreatePost "test-channel" "Ошибка при удалении: tarantool error"]) ∧
    (runAll storeConn
        [Request.createVote "6ba7b810-9dad-11d1" 1700000000 testCreatePost,
         Request.createVote "6ba7b810-9dad-11d1" 1700000001 testCreatePost] []).2.map
        List.getLast? =
      [some (Event.CreatePost "test-channel" "### Test question?\n**Варианты:**\n- `Option1`\n- `Option2`\n\nПроголосовать: `/vote \"ваш выбор\" 6ba7b8109dad11d1`\n\nID голосования: `6ba7b8109dad11d1`"),
       some (Event.CreatePost "test-channel"
         "Ошибка при создании голосования: Duplicate key exists")] ∧
    (runAll testFailConn
        [Request.vote testVotePost, Request.endVote testEndPost,
         Request.deleteVote testDeletePost] ()).2.map (fun events => events.drop 1) =
      [[updateEvent "abc123"
          [(Atom.str "Option1", Atom.int64 1), (Atom.str "Option2", Atom.int 3)]
          [(Atom.str "user1", Atom.bool true)],
        Event.CreatePost "test-channel" "Ошибка при голосовании: tarantool error"],
       [Event.Call "end_vote" (voteKey "abc123"),
        Event.CreatePost "test-channel" "Ошибка при завершении голосования: tarantool error"],
       [Event.Call "delete_vote"
          [Value.atom (Atom.str "abc123"), Value.atom (Atom.str "user1")],
        Event.CreatePost "test-channel" "Ошибка при удалении: tarantool error"]] :=
  ⟨(failed_write_is_reported.1 Store storeConn [testCreated] [testCreated]
      "6ba7b810-9dad-11d1" 1700000001 testCreatePost "Test question?"
      "\"Option1\" \"Option2\"" "Duplicate key exists" (by decide) (by decide) rfl).1,
   (failed_write_is_reported.2.1 Unit testFailConn () () () testVotePost "Option1" "abc123"
      testRecord []
      [(Atom.str "Option1", Atom.int64 1), (Atom.str "Option2", Atom.int 3)]
      [(Atom.str "user1", Atom.bool true)] "tarantool error"
      (by decide) rfl (by decide) rfl).1,
   (failed_write_is_reported.2.2.1 Unit testFailConn () () () testEndPost "abc123"
      testRecord [] "tarantool error" (by decide) rfl rfl rfl).1,
   (failed_write_is_reported.2.2.2 Unit testFailConn () () () testDeletePost "abc123"
      testRecord [] "tarantool error" (by decide) rfl rfl rfl).1,
   by decide, by decide⟩

/-- C13 (code bug): the message `/vote create invalid-format`, for which the
unit test "invalid format" of `TestHandleCreateVote` expects the text
"Нужно минимум 2 варианта ответа", is answered with the help text, which is
another text; nothing is inserted. -/
theorem invalid_create_gets_help_text :
    reCreate testInvalidCreatePost.Message = none ∧
    handleCreateVote storeConn "6ba7b810-9dad-11d1" 1700000000 testInvalidCreatePost [] =
      ([], [Event.CreatePost "test-channel"
        "**Доступные команды:**\n- /vote create \"Вопрос?\" \"Вариант1\" \"Вариант2\" ... - Создать голосование\n- /vote \"Ваш выбор\" ID - Проголосовать (1 раз)\n- /vote info ID - Показать текущие результаты\n- /vote end ID - Завершить голосование (только создатель)\n- /vote delete ID - Удалить голосование (только создатель)"]) ∧
    helpText ≠ "Нужно минимум 2 варианта ответа" :=
  ⟨by decide, rfl, ne_of_head_ne _ _ (by decide)⟩

/-- For every create message the create pattern does not match,
`handleCreateVote` replies with the help text and does nothing else: no
insert is issued and the state of the connection is untouched. -/
theorem unparsed_create_gets_help {S : Type} (t : Connection S) (s : S) (uuid : String)
    (now : Int) (post : Post) (hparse : reCreate post.Message = none) :
    handleCreateVote t uuid now post s = (s, [Event.CreatePost post.ChannelId helpText]) := by
  simp [handleCreateVote, hparse, sendHelp, sendMessage]

/-- The message of the unit test "invalid format" is one the create pattern
does not match. -/
theorem unparsed_create_gets_help_witness :
    handleCreateVote storeConn "6ba7b810-9dad-11d1" 1700000000 testInvalidCreatePost [] =
      ([], [Event.CreatePost testInvalidCreatePost.ChannelId helpText]) :=
  unparsed_create_gets_help storeConn [] "6ba7b810-9dad-11d1" 1700000000
    testInvalidCreatePost (by decide)

/-- The text "Нужно минимум 2 варианта ответа" is posted by `handleCreateVote`
exactly when the create pattern matches and fewer than 2 distinct labels are
found: the path of a message the pattern does not match never sends it. -/
theorem too_few_options_reply_iff {S : Type} (t : Connection S) (s : S) (uuid : String)
    (now : Int) (post : Post) :
    Event.CreatePost post.ChannelId msgTooFewOptions ∈ (handleCreateVote t uuid now post s).2 ↔
      ∃ question optionsStr, reCreate post.Message = some (question, optionsStr) ∧
        (optionRe optionsStr).toFinset.card < 2 := by
  have hhelp : helpText ≠ msgTooFewOptions := ne_of_head_ne _ _ (by decide)
  cases hparse : reCreate post.Message with
  | none =>
    rw [unparsed_create_gets_help t s uuid now post hparse]
    constructor
    · intro hmem
      simp only [List.mem_singleton, Event.CreatePost.injEq] at hmem
      exact absurd hmem.2.symm hhelp
    · rintro ⟨q, o, hq, _⟩
      exact Option.noConfusion hq
  | some x =>
    obtain ⟨question, optionsStr⟩ := x
    have hback : (∃ q o, some (question, optionsStr) = some (q, o) ∧
        (optionRe o).toFinset.card < 2) → (optionRe optionsStr).toFinset.card < 2 := by
      rintro ⟨q, o, hq, hlt⟩
      simp only [Option.some.injEq, Prod.mk.injEq] at hq
      rw [hq.2]
      exact hlt
    by_cases h : (optionRe optionsStr).toFinset.card < 2
    · rw [handleCreateVote_refused t s uuid now post question optionsStr hparse h]
      exact ⟨fun _ => ⟨question, optionsStr, rfl, h⟩, fun _ => List.mem_singleton.2 rfl⟩
    · have hlen := buildOptions_length (optionRe optionsStr)
      have hne1 : ∀ e : String, "Ошибка при создании голосования: " ++ e ≠ msgTooFewOptions :=
        fun e => ne_of_head_ne _ _ (by simp [msgTooFewOptions, String.data_append])
      have hne2 : ∀ q o i, createdMessage q o i ≠ msgTooFewOptions :=
        fun q o i => ne_of_head_ne _ _ (by simp [createdMessage, msgTooFewOptions,
          String.data_append])
      refine ⟨fun hmem => ?_, fun hex => absurd (hback hex) h⟩
      exfalso
      unfold handleCreateVote at hmem
      simp only [hparse, hlen, h, if_false] at hmem
      cases hI : t.Insert s "votes" (voteData (newVoteID uuid) post question
          (buildOptions (optionRe optionsStr)) now) with
      | mk s1 r =>
        rw [hI] at hmem
        cases r with
        | error e =>
          simp [sendMessage] at hmem
          exact hne1 e hmem.symm
        | ok a =>
          simp [sendMessage] at hmem
          exact hne2 _ _ _ hmem.symm

/-- C14 (code bug): on the sequential store read through the wire format,
with integers returned as `int` (as the mocks of the tests return them) or as
`uint64`: a poll is created with `Red` and `Blue`, then `A` and `B` both vote
`Red`.  Both votes are answered with the success message, and the record
reached has `Red: 1`, `Blue: 0` and the two voters `A` and `B`: the sum of the
tallies is 1, the number of users in `votedUsers` is 2.  The second vote reads
a count that is no `int64`, takes it for 0 and writes 1 again. -/
theorem second_vote_for_an_option_is_not_counted :
    (runAll (wireConn Atom.int) colourRun []).1 = [colourRecord (Atom.int 0)] ∧
    (runAll (wireConn asUint64) colourRun []).1 = [colourRecord (Atom.uint64 0)] ∧
    ((runAll (wireConn Atom.int) colourRun []).2.drop 1).map List.getLast? =
      [some (Event.CreatePost "town-square"
         "Ваш голос учтён! Текущие результаты:\n- Red: 1\n- Blue: 0"),
       some (Event.CreatePost "town-square"
         "Ваш голос учтён! Текущие результаты:\n- Red: 1\n- Blue: 0")] ∧
    tallySum [(Atom.str "Red", Atom.int64 1), (Atom.str "Blue", Atom.int 0)] = 1 ∧
    tallySum [(Atom.str "Red", Atom.int64 1), (Atom.str "Blue", Atom.uint64 0)] = 1 ∧
    (mapKeys [(Atom.str "A", Atom.bool true), (Atom.str "B", Atom.bool true)]).length = 2 := by
  decide

/-- C15: a successful `handleVote` issues one `Update` whose operations assign
field 4 (options) and field 7 (`votedUsers`) and no other field, so id,
channel, creator, question, createdAt and active are not written.  The written
options have the labels of the stored options, in the same order, and the
stored tally of every label but the chosen one; the written `votedUsers` holds
the voter, every stored voter with its stored mark, and no one else. -/
theorem vote_writes_options_and_voters_only {S : Type} (t : Connection S) (s s1 s2 : S)
    (post : Post) (option voteID : String) (vote : Tuple) (rest : List Tuple)
    (options votedUsers : IMap) (count : Atom) (resp : Response)
    (hparse : reVote post.Message = some (option, voteID))
    (hsel : t.Select s "votes" "primary" 0 1 Iter.IterEq (voteKey voteID) =
      (s1, Except.ok ⟨vote :: rest⟩))
    (hactive : vote[6]? = some (Value.atom (Atom.bool true)))
    (hvoted : vote[7]? = some (Value.imap votedUsers))
    (hfresh : mapGet (Atom.str post.UserId) votedUsers = none)
    (hoptions : vote[4]? = some (Value.imap options))
    (hlabel : mapGet (Atom.str option) options = some count)
    (hUpdate : t.Update s1 "votes" "primary" (voteKey voteID)
      (updateOps
        (mapSet (Atom.str option) (Atom.int64 (wrapInt64 (currentCountOf count + 1))) options)
        (mapSet (Atom.str post.UserId) (Atom.bool true) votedUsers)) =
      (s2, Except.ok resp)) :
    ∃ written voters : IMap,
      handleVote t post s =
        (s2, [selectEvent voteID,
          Event.Update "votes" "primary" (voteKey voteID)
            [⟨"=", 4, Value.imap written⟩, ⟨"=", 7, Value.imap voters⟩],
          Event.CreatePost post.ChannelId (votedMessage written)]) ∧
      mapKeys written = mapKeys options ∧
      (∀ k, k ≠ Atom.str option → mapGet k written = mapGet k options) ∧
      mapGet (Atom.str post.UserId) voters = some (Atom.bool true) ∧
      (∀ k v, mapGet k votedUsers = some v → mapGet k voters = some v) ∧
      (∀ k, k ∈ mapKeys voters ↔ k = Atom.str post.UserId ∨ k ∈ mapKeys votedUsers) := by
  refine ⟨mapSet (Atom.str option) (Atom.int64 (wrapInt64 (currentCountOf count + 1))) options,
    mapSet (Atom.str post.UserId) (Atom.bool true) votedUsers, ?_, ?_, ?_, ?_, ?_, ?_⟩
  · simp [handleVote, handleVoteRead, handleVoteWrite, hparse, hsel, checkVote, hactive,
      hvoted, hfresh, hoptions, hlabel, hUpdate, sendMessage, votedUsersOf]
    rfl
  · exact mapKeys_mapSet_of_mem _ _ _ _ hlabel
  · intro k hk
    rw [mapGet_mapSet]
    simp [hk]
  · rw [mapGet_mapSet]
    simp
  · intro k v hk
    rw [mapGet_mapSet]
    have hne : k ≠ Atom.str post.UserId := by
      intro e
      rw [e, hfresh] at hk
      exact Option.noConfusion hk
    simp [hne, hk]
  · intro k
    exact mem_mapKeys_mapSet _ _ _ _

/-- Witness of C15: voter `B` votes `Blue` on the scenario poll on which `A`
has voted `Red`. -/
theorem vote_writes_options_and_voters_only_witness :
    ∃ written voters : IMap,
      handleVote storeConn voteBlueB [redBluePoll 1 0 true [(Atom.str "A", Atom.bool true)]] =
        (Store.update [redBluePoll 1 0 true [(Atom.str "A", Atom.bool true)]] (voteKey "P1")
            (updateOps
              (mapSet (Atom.str "Blue")
                (Atom.int64 (wrapInt64 (currentCountOf (Atom.int64 0) + 1)))
                [(Atom.str "Red", Atom.int64 1), (Atom.str "Blue", Atom.int64 0)])
              (mapSet (Atom.str "B") (Atom.bool true) [(Atom.str "A", Atom.bool true)])),
          [selectEvent "P1",
           Event.Update "votes" "primary" (voteKey "P1")
             [⟨"=", 4, Value.imap written⟩, ⟨"=", 7, Value.imap voters⟩],
           Event.CreatePost "town-square" (votedMessage written)]) ∧
      mapKeys written =
        mapKeys [(Atom.str "Red", Atom.int64 1), (Atom.str "Blue", Atom.int64 0)] ∧
      (∀ k, k ≠ Atom.str "Blue" → mapGet k written =
        mapGet k [(Atom.str "Red", Atom.int64 1), (Atom.str "Blue", Atom.int64 0)]) ∧
      mapGet (Atom.str "B") voters = some (Atom.bool true) ∧
      (∀ k v, mapGet k [(Atom.str "A", Atom.bool true)] = some v → mapGet k voters = some v) ∧
      (∀ k, k ∈ mapKeys voters ↔
        k = Atom.str "B" ∨ k ∈ mapKeys [(Atom.str "A", Atom.bool true)]) :=
  vote_writes_options_and_voters_only storeConn _ _ _ voteBlueB "Blue" "P1"
    (redBluePoll 1 0 true [(Atom.str "A", Atom.bool true)]) []
    [(Atom.str "Red", Atom.int64 1), (Atom.str "Blue", Atom.int64 0)]
    [(Atom.str "A", Atom.bool true)] (Atom.int64 0) _
    (by decide) rfl rfl rfl rfl rfl rfl rfl

/-- C16 (counterexample): against a store whose reads fail with "connection
refused", each of the four handlers replies with the NotFound message, the
reply it gives when the read returns no record. -/
theorem failed_read_is_answered_not_found :
    handleVoteInfo unreachableConn ⟨"/vote info abc123", "test-channel", "user1"⟩ () =
      ((), [selectEvent "abc123", Event.CreatePost "test-channel" msgNotFound]) ∧
    handleVote unreachableConn testVotePost () =
      ((), [selectEvent "abc123", Event.CreatePost "test-channel" msgNotFound]) ∧
    handleEndVote unreachableConn testEndPost () =
      ((), [selectEvent "abc123", Event.CreatePost "test-channel" msgNotFound]) ∧
    handleDeleteVote unreachableConn testDeletePost () =
      ((), [selectEvent "abc123", Event.CreatePost "test-channel" msgNotFound]) := by
  decide

/-- C16 (amended): when the store read fails with an error, `handleVoteInfo`,
`handleVote`, `handleEndVote` and `handleDeleteVote` reply with the NotFound
message, as they do for an empty result; the run is the `Select` and that
post, the error text reaches no post and no write is issued. -/
theorem failed_read_is_not_found {S : Type} (t : Connection S) (s s1 : S) (e : String)
    (voteID option : String) (pInfo pVote pEnd pDelete : Post)
    (hInfo : reInfo pInfo.Message = some voteID)
    (hVote : reVote pVote.Message = some (option, voteID))
    (hEnd : reEnd pEnd.Message = some voteID)
    (hDelete : reDelete pDelete.Message = some voteID)
    (hsel : t.Select s "votes" "primary" 0 1 Iter.IterEq (voteKey voteID) =
      (s1, Except.error e)) :
    handleVoteInfo t pInfo s =
      (s1, [selectEvent voteID, Event.CreatePost pInfo.ChannelId msgNotFound]) ∧
    handleVote t pVote s =
      (s1, [selectEvent voteID, Event.CreatePost pVote.ChannelId msgNotFound]) ∧
    handleEndVote t pEnd s =
      (s1, [selectEvent voteID, Event.CreatePost pEnd.ChannelId msgNotFound]) ∧
    handleDeleteVote t pDelete s =
      (s1, [selectEvent voteID, Event.CreatePost pDelete.ChannelId msgNotFound]) := by
  refine ⟨?_, ?_, ?_, ?_⟩
  · simp [handleVoteInfo, hInfo, hsel, sendMessage]
  · simp [handleVote, handleVoteRead, hVote, hsel, sendMessage]
  · simp [handleEndVote, hEnd, hsel, sendMessage]
  · simp [handleDeleteVote, hDelete, hsel, sendMessage]

/-- Witness of C16 (amended): the posts of the unit tests against the
unreachable store. -/
theorem failed_read_is_not_found_witness :
    handleVoteInfo unreachableConn ⟨"/vote info abc123", "test-channel", "user1"⟩ () =
      ((), [selectEvent "abc123", Event.CreatePost "test-channel" msgNotFound]) ∧
    handleVote unreachableConn testVotePost () =
      ((), [selectEvent "abc123", Event.CreatePost "test-channel" msgNotFound]) ∧
    handleEndVote unreachableConn testEndPost () =
      ((), [selectEvent "abc123", Event.CreatePost "test-channel" msgNotFound]) ∧
    handleDeleteVote unreachableConn testDeletePost () =
      ((), [selectEvent "abc123", Event.CreatePost "test-channel" msgNotFound]) :=
  failed_read_is_not_found unreachableConn () () "connection refused" "abc123" "Option1"
    ⟨"/vote info abc123", "test-channel", "user1"⟩ testVotePost testEndPost testDeletePost
    (by decide) (by decide) (by decide) (by decide) rfl

/-! ### Reads that return counts as `int64` -/

theorem readAtom_readAtom (a : Atom) :
    readAtom Atom.int64 (readAtom Atom.int64 a) = readAtom Atom.int64 a := by
  cases a <;> rfl

theorem isRead_of_readValue (v : Value) (m : IMap)
    (h : readValue Atom.int64 v = Value.imap m) : isRead m := by
  cases v with
  | atom a => simp [readValue] at h
  | imap m0 =>
    simp only [readValue, Value.imap.injEq] at h
    subst h
    intro e he
    obtain ⟨e0, _, rfl⟩ := List.mem_map.1 he
    exact ⟨readAtom_readAtom _, readAtom_readAtom _⟩
  | mapStringAny m0 =>
    simp only [readValue, Value.imap.injEq] at h
    subst h
    intro e he
    obtain ⟨e0, _, rfl⟩ := List.mem_map.1 he
    exact ⟨rfl, readAtom_readAtom _⟩
  | mapStringBool m0 =>
    simp only [readValue, Value.imap.injEq] at h
    subst h
    intro e he
    obtain ⟨e0, _, rfl⟩ := List.mem_map.1 he
    exact ⟨rfl, rfl⟩

theorem isRead_readOptions (t : Tuple) : isRead (readOptions Atom.int64 t) := by
  unfold readOptions
  split
  · split
    · rename_i h
      exact isRead_of_readValue _ _ h
    · intro e he
      simp at he
  · intro e he
    simp at he

theorem isRead_readVoters (t : Tuple) : isRead (readVoters Atom.int64 t) := by
  unfold readVoters
  split
  · rename_i v _
    cases h : readValue Atom.int64 v with
    | imap m => exact isRead_of_readValue _ _ h
    | atom a =>
      intro e he
      simp [votedUsersOf] at he
    | mapStringAny m =>
      intro e he
      simp [votedUsersOf] at he
    | mapStringBool m =>
      intro e he
      simp [votedUsersOf] at he
  · intro e he
    simp at he

theorem isRead_mapSet (k v : Atom) (m : IMap) (hm : isRead m)
    (hk : readAtom Atom.int64 k = k) (hv : readAtom Atom.int64 v = v) :
    isRead (mapSet k v m) := by
  intro e he
  rcases mem_mapSet k v m e he with h | h
  · rw [h]
    exact ⟨hk, hv⟩
  · exact hm e h

theorem readValue_of_isRead (m : IMap) (hm : isRead m) :
    readValue Atom.int64 (Value.imap m) = Value.imap m := by
  simp only [readValue, Value.imap.injEq]
  conv_rhs => rw [← List.map_id m]
  apply List.map_congr_left
  intro e he
  obtain ⟨h1, h2⟩ := hm e he
  simp [h1, h2]

theorem currentCountOf_of_read (c : Atom) (h : readAtom Atom.int64 c = c) :
    currentCountOf c = tallyOf c := by
  cases c <;> simp [readAtom] at h <;> rfl

theorem wireConn_select (intType : Int → Atom) (st : Store) (it : Iter) (key : Tuple) :
    (wireConn intType).Select st "votes" "primary" 0 1 it key =
      (st, Except.ok ⟨(st.select 0 1 key).map (fun t => t.map (readValue intType))⟩) := by
  simp [wireConn, storeConn]

theorem mem_of_select (st : Store) (key : Tuple) (t : Tuple) (rest : List Tuple)
    (h : st.select 0 1 key = t :: rest) : t ∈ st := by
  have : t ∈ st.select 0 1 key := by
    rw [h]
    exact List.mem_cons_self _ _
  unfold Store.select at this
  exact (List.mem_filter.1 (List.mem_of_mem_drop (List.mem_of_mem_take this))).1

theorem checkVote_write (userId option : String) (vote : Tuple) (o u : IMap)
    (h : checkVote userId option vote = VoteCheck.write o u) :
    ∃ options v7 c, vote[4]? = some (Value.imap options) ∧ vote[7]? = some v7 ∧
      mapGet (Atom.str userId) (votedUsersOf v7) = none ∧
      mapGet (Atom.str option) options = some c ∧
      o = mapSet (Atom.str option) (Atom.int64 (wrapInt64 (currentCountOf c + 1))) options ∧
      u = mapSet (Atom.str userId) (Atom.bool true) (votedUsersOf v7) := by
  cases h6 : vote[6]? with
  | none => simp [checkVote, h6] at h
  | some v6 =>
    by_cases hact : v6 = Value.atom (Atom.bool true)
    · cases h7 : vote[7]? with
      | none => simp [checkVote, h6, hact, h7] at h
      | some v7 =>
        cases hfresh : mapGet (Atom.str userId) (votedUsersOf v7) with
        | some x => simp [checkVote, h6, hact, h7, hfresh] at h
        | none =>
          cases h4 : vote[4]? with
          | none => simp [checkVote, h6, hact, h7, hfresh, h4] at h
          | some v4 =>
            cases v4 with
            | atom a => simp [checkVote, h6, hact, h7, hfresh, h4] at h
            | mapStringAny m => simp [checkVote, h6, hact, h7, hfresh, h4] at h
            | mapStringBool m => simp [checkVote, h6, hact, h7, hfresh, h4] at h
            | imap options =>
              cases hc : mapGet (Atom.str option) options with
              | none => simp [checkVote, h6, hact, h7, hfresh, h4, hc] at h
              | some c =>
                simp [checkVote, h6, hact, h7, hfresh, h4, hc] at h
                exact ⟨options, v7, c, rfl, rfl, hfresh, hc, h.1.symm, h.2.symm⟩
    · simp [checkVote, h6, hact] at h

theorem handleVote_wire_state (st : Store) (p : Post) :
    (handleVote (wireConn Atom.int64) p st).1 = st ∨
    ∃ (t0 : Tuple) (l voteID : String) (c : Atom), t0 ∈ st ∧ 7 < t0.length ∧
      mapGet (Atom.str l) (readOptions Atom.int64 t0) = some c ∧
      mapGet (Atom.str p.UserId) (readVoters Atom.int64 t0) = none ∧
      (handleVote (wireConn Atom.int64) p st).1 =
        st.update (voteKey voteID)
          (updateOps
            (mapSet (Atom.str l) (Atom.int64 (wrapInt64 (currentCountOf c + 1)))
              (readOptions Atom.int64 t0))
            (mapSet (Atom.str p.UserId) (Atom.bool true) (readVoters Atom.int64 t0))) := by
  unfold handleVote handleVoteRead
  cases hparse : reVote p.Message with
  | none => exact Or.inl rfl
  | some lv =>
    obtain ⟨l, voteID⟩ := lv
    simp only [wireConn_select]
    cases hsel : st.select 0 1 (voteKey voteID) with
    | nil => exact Or.inl rfl
    | cons t0 rest =>
      simp only [List.map_cons]
      cases hcheck : checkVote p.UserId l (t0.map (readValue Atom.int64)) with
      | goPanic => exact Or.inl rfl
      | reply m => exact Or.inl rfl
      | write o u =>
        obtain ⟨options, v7, c, h4, h7, hfresh, hc, ho, hu⟩ := checkVote_write _ _ _ _ _ hcheck
        right
        rw [List.getElem?_map] at h4 h7
        obtain ⟨raw4, hr4, hv4⟩ := Option.map_eq_some'.1 h4
        obtain ⟨raw7, hr7, hv7⟩ := Option.map_eq_some'.1 h7
        have hopt : readOptions Atom.int64 t0 = options := by
          simp [readOptions, hr4, hv4]
        have hvot : readVoters Atom.int64 t0 = votedUsersOf v7 := by
          simp [readVoters, hr7, hv7]
        refine ⟨t0, l, voteID, c, mem_of_select st _ t0 rest hsel,
          (List.getElem?_eq_some_iff.1 hr7).1, by rw [hopt]; exact hc,
          by rw [hvot]; exact hfresh, ?_⟩
        rw [hopt, hvot, ← ho, ← hu]
        simp [handleVoteWrite, wireConn, storeConn, updateOps]

theorem mapSet_of_absent {κ β : Type} [DecidableEq κ] (k : κ) (v : β) (m : GoMap κ β)
    (h : mapGet k m = none) : mapSet k v m = m ++ [(k, v)] := by
  induction m with
  | nil => rfl
  | cons e m ih =>
    obtain ⟨k1, v1⟩ := e
    by_cases h1 : k1 = k
    · simp [mapGet, h1] at h
    · simp only [mapGet, h1, if_false] at h
      simp [mapSet, h1, ih h]

theorem tallyOf_le_tallySum (m : IMap) (hm : ∀ e ∈ m, 0 ≤ tallyOf e.2) (e : Atom × Atom)
    (he : e ∈ m) : tallyOf e.2 ≤ tallySum m := by
  unfold tallySum
  apply List.single_le_sum
  · intro x hx
    obtain ⟨e1, h1, rfl⟩ := List.mem_map.1 hx
    exact hm e1 h1
  · exact List.mem_map.2 ⟨e, he, rfl⟩

theorem storeInvariant_mono (n : Nat) (st : Store) (h : storeInvariant n st) :
    storeInvariant (n + 1) st := by
  intro t ht
  obtain ⟨h1, h2, h3⟩ := h t ht
  exact ⟨h1, h2, by omega⟩

theorem tallyInvariant_voteData (voteID : String) (post : Post) (question : String)
    (labels : List String) (now : Int) :
    tallyInvariant (voteData voteID post question (buildOptions labels) now) ∧
    (readVoters Atom.int64 (voteData voteID post question (buildOptions labels) now)).length
      = 0 := by
  have hval := (buildOptions_spec labels).2.2
  have hopt : readOptions Atom.int64 (voteData voteID post question (buildOptions labels) now) =
      (buildOptions labels).map (fun e => (Atom.str e.1, readAtom Atom.int64 e.2)) := rfl
  have hvot : readVoters Atom.int64 (voteData voteID post question (buildOptions labels) now) =
      [] := rfl
  have hzero : ∀ e ∈ (buildOptions labels).map
      (fun e => (Atom.str e.1, readAtom Atom.int64 e.2)), tallyOf e.2 = 0 := by
    intro e he
    obtain ⟨e0, h0, rfl⟩ := List.mem_map.1 he
    simp [hval e0 h0, readAtom, tallyOf]
  refine ⟨⟨?_, ?_, ?_⟩, ?_⟩
  · intro e he
    rw [hopt] at he
    rw [hzero e he]
  · rw [hopt, hvot]
    unfold tallySum
    rw [List.sum_eq_zero]
    · simp [mapKeys]
    · intro x hx
      obtain ⟨e1, h1, rfl⟩ := List.mem_map.1 hx
      exact hzero e1 h1
  · rw [hvot]
    simp [mapKeys]
  · rw [hvot]
    rfl

theorem storeInvariant_insert (n : Nat) (st : Store) (voteID : String) (post : Post)
    (question : String) (labels : List String) (now : Int) (h : storeInvariant n st) :
    storeInvariant n (st ++ [voteData voteID post question (buildOptions labels) now]) := by
  intro t ht
  rcases List.mem_append.1 ht with h1 | h1
  · exact h t h1
  · have : t = voteData voteID post question (buildOptions labels) now := by simpa using h1
    subst this
    obtain ⟨h2, h3⟩ := tallyInvariant_voteData voteID post question labels now
    exact ⟨rfl, h2, by omega⟩

theorem storeInvariant_endVote (n : Nat) (st : Store) (key : Tuple)
    (h : storeInvariant n st) : storeInvariant n (st.endVote key) := by
  intro t ht
  obtain ⟨t0, h0, rfl⟩ := List.mem_map.1 ht
  obtain ⟨h1, h2, h3⟩ := h t0 h0
  split
  · have ho : readOptions Atom.int64 (t0.set 6 (Value.atom (Atom.bool false))) =
        readOptions Atom.int64 t0 := by
      simp [readOptions, List.getElem?_set]
    have hv : readVoters Atom.int64 (t0.set 6 (Value.atom (Atom.bool false))) =
        readVoters Atom.int64 t0 := by
      simp [readVoters, List.getElem?_set]
    refine ⟨by simpa using h1, ?_, by rw [hv]; exact h3⟩
    unfold tallyInvariant
    rw [ho, hv]
    exact h2
  · exact ⟨h1, h2, h3⟩

theorem storeInvariant_deleteVote (n : Nat) (st : Store) (key : Tuple)
    (h : storeInvariant n st) : storeInvariant n (st.deleteVote key) := by
  intro t ht
  exact h t (List.mem_filter.1 ht).1

theorem storeInvariant_update (n : Nat) (st : Store) (key : Tuple) (t0 : Tuple) (l user : String)
    (c : Atom) (h : storeInvariant n st) (hn : n + 1 < 2 ^ 63) (ht0 : t0 ∈ st)
    (hc : mapGet (Atom.str l) (readOptions Atom.int64 t0) = some c)
    (hfresh : mapGet (Atom.str user) (readVoters Atom.int64 t0) = none) :
    storeInvariant (n + 1)
      (st.update key
        (updateOps
          (mapSet (Atom.str l) (Atom.int64 (wrapInt64 (currentCountOf c + 1)))
            (readOptions Atom.int64 t0))
          (mapSet (Atom.str user) (Atom.bool true) (readVoters Atom.int64 t0)))) := by
  obtain ⟨_, ⟨hpos, hsum, hnd⟩, hbound⟩ := h t0 ht0
  have hmem := mem_of_mapGet _ _ _ hc
  have hcread := ((isRead_readOptions t0) _ hmem).2
  have hcc : currentCountOf c = tallyOf c := currentCountOf_of_read c hcread
  have hc0 : 0 ≤ tallyOf c := hpos _ hmem
  have hcle : tallyOf c ≤ n := by
    have h1 := tallyOf_le_tallySum _ hpos _ hmem
    have h2 : (mapKeys (readVoters Atom.int64 t0)).length = (readVoters Atom.int64 t0).length := by
      simp [mapKeys]
    rw [hsum, h2] at h1
    have h3 : ((readVoters Atom.int64 t0).length : Int) ≤ n := by exact_mod_cast hbound
    simp only at h1
    omega
  have hwrap : wrapInt64 (currentCountOf c + 1) = tallyOf c + 1 := by
    rw [hcc]
    apply wrapInt64_of_bounds
    · omega
    · have : ((n : Int) + 1) < 2 ^ 63 := by exact_mod_cast hn
      omega
  rw [hwrap]
  set o1 := mapSet (Atom.str l) (Atom.int64 (tallyOf c + 1)) (readOptions Atom.int64 t0) with ho1
  set u1 := mapSet (Atom.str user) (Atom.bool true) (readVoters Atom.int64 t0) with hu1
  have hro : isRead o1 := isRead_mapSet _ _ _ (isRead_readOptions t0) rfl rfl
  have hru : isRead u1 := isRead_mapSet _ _ _ (isRead_readVoters t0) rfl rfl
  have hu1eq : u1 = readVoters Atom.int64 t0 ++ [(Atom.str user, Atom.bool true)] :=
    mapSet_of_absent _ _ _ hfresh
  have ho1pos : ∀ e ∈ o1, 0 ≤ tallyOf e.2 := by
    intro e he
    rcases mem_mapSet _ _ _ e he with h1 | h1
    · rw [h1]
      show (0 : Int) ≤ tallyOf c + 1
      omega
    · exact hpos e h1
  have ho1sum : tallySum o1 = ((mapKeys u1).length : Int) := by
    rw [ho1, tallySum_mapSet _ _ _ _ hc, hsum, hu1eq]
    simp only [tallyOf, mapKeys, List.map_append, List.length_append, List.length_map,
      List.map_cons, List.map_nil, List.length_singleton]
    push_cast
    ring
  have hu1nd : (mapKeys u1).Nodup := nodup_mapKeys_mapSet _ _ _ hnd
  have hu1len : u1.length ≤ n + 1 := by
    rw [hu1eq]
    simp
    exact hbound
  intro t ht
  obtain ⟨t1, h1, rfl⟩ := List.mem_map.1 ht
  obtain ⟨hlen, hinv, hb⟩ := h t1 h1
  split
  · have hf : List.foldl applyOp t1 (updateOps o1 u1) =
        (t1.set 4 (Value.imap o1)).set 7 (Value.imap u1) := rfl
    rw [hf]
    have ho : readOptions Atom.int64 ((t1.set 4 (Value.imap o1)).set 7 (Value.imap u1)) = o1 := by
      simp [readOptions, List.getElem?_set, hlen, readValue_of_isRead o1 hro]
    have hv : readVoters Atom.int64 ((t1.set 4 (Value.imap o1)).set 7 (Value.imap u1)) = u1 := by
      simp [readVoters, List.getElem?_set, hlen, readValue_of_isRead u1 hru, votedUsersOf]
    refine ⟨by simpa using hlen, ?_, by rw [hv]; exact hu1len⟩
    unfold tallyInvariant
    rw [ho, hv]
    exact ⟨ho1pos, ho1sum, hu1nd⟩
  · exact ⟨hlen, hinv, by omega⟩

theorem handleVoteInfo_wire_state (intType : Int → Atom) (st : Store) (p : Post) :
    (handleVoteInfo (wireConn intType) p st).1 = st := by
  unfold handleVoteInfo
  cases reInfo p.Message with
  | none => rfl
  | some voteID =>
    simp only [wireConn_select]
    cases (st.select 0 1 (voteKey voteID)) with
    | nil => rfl
    | cons t0 rest =>
      simp only [List.map_cons]
      split <;> rfl

theorem handleCreateVote_wire_state (intType : Int → Atom) (st : Store) (uuid : String)
    (now : Int) (p : Post) :
    (handleCreateVote (wireConn intType) uuid now p st).1 = st ∨
    ∃ question labels, (handleCreateVote (wireConn intType) uuid now p st).1 =
      st ++ [voteData (newVoteID uuid) p question (buildOptions labels) now] := by
  unfold handleCreateVote
  cases reCreate p.Message with
  | none => exact Or.inl rfl
  | some qo =>
    obtain ⟨question, optionsStr⟩ := qo
    simp only
    split
    · exact Or.inl rfl
    · have hins : (wireConn intType).Insert st "votes" (voteData (newVoteID uuid) p question
          (buildOptions (optionRe optionsStr)) now) =
          if st.any (hasKey ((voteData (newVoteID uuid) p question
            (buildOptions (optionRe optionsStr)) now).take 1)) = true then
            (st, Except.error "Duplicate key exists")
          else (st ++ [voteData (newVoteID uuid) p question
            (buildOptions (optionRe optionsStr)) now],
            Except.ok ⟨[voteData (newVoteID uuid) p question
              (buildOptions (optionRe optionsStr)) now]⟩) := rfl
      rw [hins]
      by_cases hdup : st.any (hasKey ((voteData (newVoteID uuid) p question
          (buildOptions (optionRe optionsStr)) now).take 1)) = true
      · rw [if_pos hdup]
        exact Or.inl rfl
      · rw [if_neg hdup]
        exact Or.inr ⟨question, optionRe optionsStr, rfl⟩

theorem handleEndVote_wire_state (intType : Int → Atom) (st : Store) (p : Post) :
    (handleEndVote (wireConn intType) p st).1 = st ∨
    ∃ voteID, (handleEndVote (wireConn intType) p st).1 = st.endVote (voteKey voteID) := by
  unfold handleEndVote
  cases reEnd p.Message with
  | none => exact Or.inl rfl
  | some voteID =>
    simp only [wireConn_select]
    cases (st.select 0 1 (voteKey voteID)) with
    | nil => exact Or.inl rfl
    | cons t0 rest =>
      simp only [List.map_cons]
      split
      · split
        · exact Or.inl rfl
        · right
          refine ⟨voteID, ?_⟩
          have hcall : (wireConn intType).Call st "end_vote" (voteKey voteID) =
              (st.endVote (voteKey voteID), Except.ok ⟨[]⟩) := by
            simp [wireConn, storeConn, voteKey]
          rw [hcall]
          simp only
          split <;> rfl
      · exact Or.inl rfl

theorem handleDeleteVote_wire_state (intType : Int → Atom) (st : Store) (p : Post) :
    (handleDeleteVote (wireConn intType) p st).1 = st ∨
    ∃ voteID, (handleDeleteVote (wireConn intType) p st).1 =
      st.deleteVote (voteKey voteID) := by
  unfold handleDeleteVote
  cases reDelete p.Message with
  | none => exact Or.inl rfl
  | some voteID =>
    simp only [wireConn_select]
    cases (st.select 0 1 (voteKey voteID)) with
    | nil => exact Or.inl rfl
    | cons t0 rest =>
      simp only [List.map_cons]
      split
      · split
        · exact Or.inl rfl
        · right
          refine ⟨voteID, ?_⟩
          simp [wireConn, storeConn, voteKey]
      · exact Or.inl rfl

theorem storeInvariant_handle (n : Nat) (st : Store) (r : Request)
    (h : storeInvariant n st) (hn : n + 1 < 2 ^ 63) :
    storeInvariant (n + 1) (r.handle (wireConn Atom.int64) st).1 := by
  cases r with
  | voteInfo p =>
    simp only [Request.handle, handleVoteInfo_wire_state]
    exact storeInvariant_mono n st h
  | createVote uuid now p =>
    rcases handleCreateVote_wire_state Atom.int64 st uuid now p with h1 | ⟨q, labels, h1⟩
    · simp only [Request.handle, h1]
      exact storeInvariant_mono n st h
    · simp only [Request.handle, h1]
      exact storeInvariant_mono n _ (storeInvariant_insert n st _ p q labels now h)
  | vote p =>
    rcases handleVote_wire_state st p with h1 | ⟨t0, l, voteID, c, ht0, _, hc, hfresh, h1⟩
    · simp only [Request.handle, h1]
      exact storeInvariant_mono n st h
    · simp only [Request.handle, h1]
      exact storeInvariant_update n st _ t0 l p.UserId c h hn ht0 hc hfresh
  | deleteVote p =>
    rcases handleDeleteVote_wire_state Atom.int64 st p with h1 | ⟨voteID, h1⟩
    · simp only [Request.handle, h1]
      exact storeInvariant_mono n st h
    · simp only [Request.handle, h1]
      exact storeInvariant_mono n _ (storeInvariant_deleteVote n st _ h)
  | endVote p =>
    rcases handleEndVote_wire_state Atom.int64 st p with h1 | ⟨voteID, h1⟩
    · simp only [Request.handle, h1]
      exact storeInvariant_mono n st h
    · simp only [Request.handle, h1]
      exact storeInvariant_mono n _ (storeInvariant_endVote n st _ h)

theorem storeInvariant_runAll (reqs : List Request) :
    ∀ (n : Nat) (st : Store), storeInvariant n st → n + reqs.length < 2 ^ 63 →
      storeInvariant (n + reqs.length) (runAll (wireConn Atom.int64) reqs st).1 := by
  induction reqs with
  | nil =>
    intro n st h _
    simpa [runAll] using h
  | cons r reqs ih =>
    intro n st h hn
    have hlen : (r :: reqs).length = reqs.length + 1 := rfl
    rw [hlen] at hn
    have h1 := storeInvariant_handle n st r h (by omega)
    have h2 := ih (n + 1) _ h1 (by omega)
    have e : n + (r :: reqs).length = n + 1 + reqs.length := by rw [hlen]; omega
    rw [e]
    exact h2

/-- With reads that return counts as `int64`, the type `handleVote` asserts,
every record reachable from the empty store by fewer than `2 ^ 63` calls of
the handlers has every tally at least 0 and the sum of its tallies equal to
the number of users in `votedUsers`. -/
theorem int64_reads_keep_tally_invariant (reqs : List Request) (hlen : reqs.length < 2 ^ 63) :
    ∀ t ∈ (runAll (wireConn Atom.int64) reqs []).1, tallyInvariant t := by
  have h0 : storeInvariant 0 [] := by
    intro t ht
    simp at ht
  have := storeInvariant_runAll reqs 0 [] h0 (by omega)
  intro t ht
  exact (this t ht).2.1

/-- On the store that hands tuples back unconverted, the votes of `colourRun`
are refused: the options `handleCreateVote` inserted are a
`map[string]interface{}`, not the `map[interface{}]interface{}` that
`handleVote` asserts. -/
theorem unconverted_record_refuses_votes :
    ((runAll storeConn colourRun []).2.drop 1).map List.getLast? =
      [some (Event.CreatePost "town-square" msgBadFormat),
       some (Event.CreatePost "town-square" msgBadFormat)] := by
  decide

end VotingBot
